import Mathlib

set_option maxRecDepth 8000
set_option linter.unusedVariables false

/-!
Verification development for the MQTT protocol engine of the NetworkModule
(src/NetworkModule/mqtt.c).  The definitions below are a shallow embedding of
the C source: byte buffers become `List Nat` (each element a byte value),
`int16_t` results become `Int`, and the C globals touched by a function are
threaded as explicit state.  Machine-integer wraparound is written out with
`% 256` / `% 65536` at the places the C types make it observable.
Constants that live in the repository's headers (which are not part of
src/) are modelled from the spec and marked as such.
-/

/-- Modelled from the spec: mqtt.h (not under src/) defines the `MQTTErrors`
enum; `MQTT_OK` is the positive success code, every hard error is a distinct
negative code (spec section 7).  The exact numeric values are immaterial to
mqtt.c, which only compares and propagates them. -/
def MQTT_OK : Int := 1

/-- Modelled from the spec: error code from the missing mqtt.h enum. -/
def MQTT_ERROR_NULLPTR : Int := -32768

/-- Modelled from the spec: error code from the missing mqtt.h enum. -/
def MQTT_ERROR_CONTROL_FORBIDDEN_TYPE : Int := -32767

/-- Modelled from the spec: error code from the missing mqtt.h enum. -/
def MQTT_ERROR_CONTROL_INVALID_FLAGS : Int := -32766

/-- Modelled from the spec: error code from the missing mqtt.h enum. -/
def MQTT_ERROR_INVALID_REMAINING_LENGTH : Int := -32765

/-- Modelled from the spec: error code from the missing mqtt.h enum. -/
def MQTT_ERROR_CONNECT_NOT_CALLED : Int := -32764

/-- Modelled from the spec: error code from the missing mqtt.h enum. -/
def MQTT_ERROR_ACK_OF_UNKNOWN : Int := -32763

/-- Modelled from the spec: error code from the missing mqtt.h enum. -/
def MQTT_ERROR_MALFORMED_RESPONSE : Int := -32762

/-- Modelled from the spec: error code from the missing mqtt.h enum. -/
def MQTT_ERROR_CONNECTION_REFUSED : Int := -32761

/-- Modelled from the spec: error code from the missing mqtt.h enum. -/
def MQTT_ERROR_CONNECT_CLIENT_ID_REFUSED : Int := -32760

/-- Modelled from the spec: error code from the missing mqtt.h enum. -/
def MQTT_ERROR_SUBSCRIBE_FAILED : Int := -32759

/-- Modelled from the spec: error code from the missing mqtt.h enum. -/
def MQTT_ERROR_SEND_BUFFER_IS_FULL : Int := -32758

/-- Modelled from the spec: error code from the missing mqtt.h enum. -/
def MQTT_ERROR_MALFORMED_REQUEST : Int := -32757

/-- Modelled from the spec: error code from the missing mqtt.h enum. -/
def MQTT_ERROR_RESPONSE_INVALID_CONTROL_TYPE : Int := -32756

/-- Modelled from the spec: error code from the missing mqtt.h enum. -/
def MQTT_ERROR_CONNACK_FORBIDDEN_FLAGS : Int := -32755

/-- Modelled from the spec: error code from the missing mqtt.h enum. -/
def MQTT_ERROR_CONNACK_FORBIDDEN_CODE : Int := -32754

/-- Modelled from the spec: MQTT control packet type codes (missing mqtt.h);
mqtt.c indexes its three validation tables with these values. -/
def MQTT_CONTROL_CONNECT : Nat := 1

/-- Modelled from the spec: MQTT control packet type code (missing mqtt.h). -/
def MQTT_CONTROL_CONNACK : Nat := 2

/-- Modelled from the spec: MQTT control packet type code (missing mqtt.h). -/
def MQTT_CONTROL_PUBLISH : Nat := 3

/-- Modelled from the spec: MQTT control packet type code (missing mqtt.h). -/
def MQTT_CONTROL_SUBSCRIBE : Nat := 8

/-- Modelled from the spec: MQTT control packet type code (missing mqtt.h). -/
def MQTT_CONTROL_SUBACK : Nat := 9

/-- Modelled from the spec: MQTT control packet type code (missing mqtt.h). -/
def MQTT_CONTROL_PINGREQ : Nat := 12

/-- Modelled from the spec: MQTT control packet type code (missing mqtt.h). -/
def MQTT_CONTROL_PINGRESP : Nat := 13

/-- Modelled from the spec: MQTT control packet type code (missing mqtt.h). -/
def MQTT_CONTROL_DISCONNECT : Nat := 14

/-- Modelled from the spec: queued-message lifecycle states (missing mqtt.h);
only their distinctness matters to mqtt.c. -/
def MQTT_QUEUED_UNSENT : Nat := 0

/-- Modelled from the spec: queued-message lifecycle state (missing mqtt.h). -/
def MQTT_QUEUED_AWAITING_ACK : Nat := 1

/-- Modelled from the spec: queued-message lifecycle state (missing mqtt.h). -/
def MQTT_QUEUED_COMPLETE : Nat := 2

/-- The fixed header of an MQTT frame: `struct mqtt_fixed_header` of mqtt.c
(control type, 4 flag bits, and the varint-coded remaining length). -/
structure MqttFixedHeader where
  control_type : Nat
  control_flags : Nat
  remaining_length : Nat
deriving DecidableEq, Repr

/-- Table `control_type_is_valid` of mqtt.c (0x01 if the type is valid). -/
def control_type_is_valid : List Nat :=
  [0, 1, 1, 1, 1, 1, 1, 1, 1, 1, 1, 1, 1, 1, 1, 0]

/-- Table `required_flags` of mqtt.c (flags that must be set per type). -/
def required_flags : List Nat :=
  [0, 0, 0, 0, 0, 0, 2, 0, 2, 0, 2, 0, 0, 0, 0, 0]

/-- Table `mask_required_flags` of mqtt.c (mask of flag bits that must match
the required flags for the associated control type). -/
def mask_required_flags : List Nat :=
  [0, 15, 15, 0, 15, 15, 15, 15, 15, 15, 15, 15, 15, 15, 15, 0]

/-- `mqtt_fixed_header_rule_violation` of mqtt.c.  Note the source compares
the masked xor with `== 1`, not with `!= 0`. -/
def mqtt_fixed_header_rule_violation (fixed_header : MqttFixedHeader) : Int :=
  if control_type_is_valid.getD fixed_header.control_type 0 ≠ 1 then
    MQTT_ERROR_CONTROL_FORBIDDEN_TYPE
  else if ((fixed_header.control_flags ^^^ required_flags.getD fixed_header.control_type 0)
      &&& mask_required_flags.getD fixed_header.control_type 0) = 1 then
    MQTT_ERROR_CONTROL_INVALID_FLAGS
  else 0

/-- Outcome of the remaining-length do-while loop of
`mqtt_unpack_fixed_header`: either the function aborts (returning `code`,
having accumulated `acc` into `remaining_length` so far), or the loop
finishes with value `acc` after consuming `nbytes` length bytes. -/
inductive RLOut where
  | abort (code : Int) (acc : Nat)
  | done (acc : Nat) (nbytes : Nat)
deriving DecidableEq, Repr

/-- The remaining-length parsing do-while loop of `mqtt_unpack_fixed_header`
(mqtt.c lines 1606-1621): `rest` is the buffer after the byte at the current
read position, `lshift`/`acc` are the loop variables.  Each iteration first
checks `lshift == 28`, then consumes a byte (aborting with 0 when the buffer
is exhausted), adds `(*buf & 0x7F) << lshift`, and continues while the
continuation bit `0x80` is set. -/
def rlLoop : List Nat → Nat → Nat → RLOut
  | [], lshift, acc =>
    if lshift = 28 then RLOut.abort MQTT_ERROR_INVALID_REMAINING_LENGTH acc
    else RLOut.abort 0 acc
  | b :: rest, lshift, acc =>
    if lshift = 28 then RLOut.abort MQTT_ERROR_INVALID_REMAINING_LENGTH acc
    else
      let acc' := acc + ((b &&& 127) <<< lshift)
      if b &&& 128 ≠ 0 then
        match rlLoop rest (lshift + 7) acc' with
        | RLOut.abort code a => RLOut.abort code a
        | RLOut.done a n => RLOut.done a (n + 1)
      else RLOut.done acc' 1

/-- `mqtt_unpack_fixed_header` of mqtt.c.  The buffer argument models
`(buf, bufsz)` with `bufsz = buf.length`; the result is the `int16_t` return
value (consumed byte count, 0 for not-yet-complete, negative for errors)
paired with the `response->fixed_header` contents as written so far. -/
def mqtt_unpack_fixed_header : List Nat → Int × MqttFixedHeader
  | [] => (0, ⟨0, 0, 0⟩)
  | b0 :: rest =>
    let ct := b0 >>> 4
    let cf := b0 &&& 15
    match rlLoop rest 0 0 with
    | RLOut.abort code acc => (code, ⟨ct, cf, acc⟩)
    | RLOut.done acc n =>
      let fh : MqttFixedHeader := ⟨ct, cf, acc⟩
      let errcode := mqtt_fixed_header_rule_violation fh
      if errcode ≠ 0 then (errcode, fh)
      else if (b0 :: rest).length - (1 + n) < acc then (0, fh)
      else ((1 + n : Int), fh)

/-- The remaining-length encoding do-while loop of `mqtt_pack_fixed_header`
(mqtt.c lines 1663-1673), structurally recursive on the remaining buffer
space: each iteration consumes one buffer slot (`none` models the `bufsz == 0`
early `return 0`), emits `remaining_length & 0x7F` with the continuation bit
`0x80` when `remaining_length > 127`, and shifts by 7. -/
def packRL : Nat → Nat → Option (List Nat)
  | _, 0 => none
  | _, 1 => none
  | rl, (bufsz + 2) =>
    if rl > 127 then (packRL (rl / 128) (bufsz + 1)).map (fun l => (rl % 128 + 128) :: l)
    else some [rl % 128]

/-- `mqtt_pack_fixed_header` of mqtt.c: result is the `int16_t` return value
paired with the bytes written to the destination buffer (on the abort paths
the partially written control byte is kept; nothing observes it). -/
def mqtt_pack_fixed_header (bufsz : Nat) (fixed_header : MqttFixedHeader) : Int × List Nat :=
  let errcode := mqtt_fixed_header_rule_violation fixed_header
  if errcode ≠ 0 then (errcode, [])
  else if bufsz = 0 then (0, [])
  else
    let b0 := ((fixed_header.control_type <<< 4) &&& 240) ||| (fixed_header.control_flags &&& 15)
    match packRL fixed_header.remaining_length bufsz with
    | none => (0, [b0])
    | some l =>
      if bufsz - (1 + l.length) < fixed_header.remaining_length then (0, b0 :: l)
      else ((1 + l.length : Int), b0 :: l)

/-- The rule-violation check reads only the control type and flags; the
remaining length field of the header is irrelevant to it. -/
theorem rule_violation_rl_irrel (ct cf rl : Nat) :
    mqtt_fixed_header_rule_violation ⟨ct, cf, rl⟩ =
      mqtt_fixed_header_rule_violation ⟨ct, cf, 0⟩ := rfl

/-- The rule-violation check never returns a positive value. -/
theorem rule_violation_nonpos (fh : MqttFixedHeader) :
    mqtt_fixed_header_rule_violation fh ≤ 0 := by
  unfold mqtt_fixed_header_rule_violation
  split
  · decide
  · split
    · decide
    · decide

/-- Bit facts for a varint byte that carries the continuation bit. -/
theorem byte_facts_hi : ∀ y < 128, ((y + 128) &&& 127 = y) ∧ ((y + 128) &&& 128 = 128) := by decide

/-- Bit facts for a varint byte without the continuation bit. -/
theorem byte_facts_lo : ∀ y < 128, (y &&& 127 = y) ∧ (y &&& 128 = 0) := by decide

/-- Packing and then re-splitting the control byte recovers a 4-bit control
type and 4-bit flags unchanged. -/
theorem byte_compose : ∀ ct < 16, ∀ cf < 16,
    ((((ct <<< 4) &&& 240) ||| (cf &&& 15)) >>> 4 = ct) ∧
      ((((ct <<< 4) &&& 240) ||| (cf &&& 15)) &&& 15 = cf) := by decide

/-- The unpack loop decodes exactly what the pack loop encoded, consuming
exactly the encoded bytes and leaving any appended payload untouched. -/
theorem packRL_sound : ∀ (l : List Nat) (rl bufsz : Nat), packRL rl bufsz = some l →
    ∀ (lshift acc : Nat) (extra : List Nat), 7 * l.length + lshift ≤ 28 →
    rlLoop (l ++ extra) lshift acc = RLOut.done (acc + rl * 2 ^ lshift) l.length := by
  intro l
  induction l with
  | nil =>
    intro rl bufsz hp
    exfalso
    match bufsz, hp with
    | (b + 2), hp =>
      by_cases hgt : rl > 127
      · rw [packRL, if_pos hgt] at hp
        cases h : packRL (rl / 128) (b + 1) <;> rw [h] at hp <;> simp at hp
      · rw [packRL, if_neg hgt] at hp
        simp at hp
  | cons x l' ih =>
    intro rl bufsz hp lshift acc extra hbound
    match bufsz, hp with
    | (b + 2), hp =>
      by_cases hgt : rl > 127
      · rw [packRL, if_pos hgt] at hp
        obtain ⟨l'', hinner, heq⟩ := Option.map_eq_some'.mp hp
        injection heq with h1 h2
        subst h1
        subst h2
        have hy : rl % 128 < 128 := Nat.mod_lt _ (by norm_num)
        have hns : lshift ≠ 28 := by simp at hbound; omega
        have hrec := ih (rl / 128) (b + 1) hinner (lshift + 7)
          (acc + (((rl % 128 + 128) &&& 127) <<< lshift)) extra
          (by simp at hbound ⊢; omega)
        rw [List.cons_append, rlLoop, if_neg hns]
        simp only [(byte_facts_hi _ hy).2, hrec, ne_eq, OfNat.ofNat_ne_zero,
          not_false_eq_true, if_true, List.length_cons]
        congr 1
        rw [(byte_facts_hi _ hy).1, Nat.shiftLeft_eq, pow_add, Nat.add_assoc]
        congr 1
        have hmd : rl % 128 + 2 ^ 7 * (rl / 128) = rl := Nat.mod_add_div rl 128
        calc rl % 128 * 2 ^ lshift + rl / 128 * (2 ^ lshift * 2 ^ 7)
            = (rl % 128 + 2 ^ 7 * (rl / 128)) * 2 ^ lshift := by ring
          _ = rl * 2 ^ lshift := by rw [hmd]
      · rw [packRL, if_neg hgt] at hp
        have hrl : rl % 128 = rl := Nat.mod_eq_of_lt (by omega)
        injection hp with hp'
        injection hp' with h1 h2
        subst h1
        subst h2
        have hns : lshift ≠ 28 := by simp at hbound; omega
        rw [List.cons_append, rlLoop, if_neg hns]
        have hlt : rl % 128 < 128 := Nat.mod_lt _ (by norm_num)
        simp only [(byte_facts_lo _ hlt).2, ne_eq, not_true_eq_false, if_false,
          List.nil_append, List.length_cons, List.length_nil]
        simp [hrl, (byte_facts_lo rl (by omega)).1, Nat.shiftLeft_eq]

/-- The pack loop emits at most `k` length bytes for values below `2^(7k)`. -/
theorem packRL_length : ∀ (l : List Nat) (rl bufsz k : Nat), packRL rl bufsz = some l →
    rl < 2 ^ (7 * k) → 1 ≤ k → l.length ≤ k := by
  intro l
  induction l with
  | nil => intro rl bufsz k _ _ _; simp
  | cons x l' ih =>
    intro rl bufsz k hp hlt hk1
    match bufsz, hp with
    | (b + 2), hp =>
      by_cases hgt : rl > 127
      · rw [packRL, if_pos hgt] at hp
        obtain ⟨l'', hinner, heq⟩ := Option.map_eq_some'.mp hp
        injection heq with h1 h2
        subst h2
        have hk : 1 ≤ k := by
          rcases Nat.eq_zero_or_pos k with hk0 | hk1
          · subst hk0; simp at hlt; omega
          · exact hk1
        have hdiv : rl / 128 < 2 ^ (7 * (k - 1)) := by
          apply Nat.div_lt_of_lt_mul
          have : 2 ^ (7 * (k - 1)) * 128 = 2 ^ (7 * k) := by
            rw [show (128 : Nat) = 2 ^ 7 by norm_num, ← pow_add]
            congr 1
            omega
          omega
        rcases Nat.eq_zero_or_pos (k - 1) with hz | hpos
        · exfalso
          have h7 : 7 * k = 7 := by omega
          rw [h7] at hlt
          norm_num at hlt
          omega
        · have := ih (rl / 128) (b + 1) (k - 1) hinner hdiv hpos
          simp only [List.length_cons]
          omega
      · rw [packRL, if_neg hgt] at hp
        injection hp with hp'
        injection hp' with h1 h2
        subst h2
        simp only [List.length_cons, List.length_nil]
        omega

/-- When the header rules pass, `mqtt_pack_fixed_header` either aborts with 0
or succeeds; in particular it is never negative. -/
theorem mqtt_pack_fixed_header_nonneg (bufsz : Nat) (fh : MqttFixedHeader)
    (h : mqtt_fixed_header_rule_violation fh = 0) :
    0 ≤ (mqtt_pack_fixed_header bufsz fh).1 := by
  unfold mqtt_pack_fixed_header
  rw [h]
  simp only [ne_eq, not_true_eq_false, if_false]
  split
  · simp
  · split
    · simp
    · split
      · simp
      · simp only []
        positivity

/-- C1 counterexample: the byte buffer `[0x80, 0x00]` is a complete SUBSCRIBE
fixed header (type 8) whose flags `0000` differ from the required `0010`
under the full `0x0F` mask, yet `mqtt_unpack_fixed_header` accepts it
(returning the consumed count 2), because the source compares the masked xor
with `== 1` instead of `!= 0`; here the masked xor is 2. -/
theorem C1_counterexample :
    mqtt_unpack_fixed_header [128, 0] = (2, ⟨8, 0, 0⟩) ∧
      (2 : Int) ≠ MQTT_ERROR_CONTROL_INVALID_FLAGS ∧
      ((0 ^^^ required_flags.getD 8 0) &&& mask_required_flags.getD 8 0) ≠ 0 := by
  decide

/-- Evaluation of `mqtt_unpack_fixed_header` once the remaining-length loop
is known to have finished. -/
theorem unpack_done_eval (b0 : Nat) (rest : List Nat) (acc n : Nat)
    (hdone : rlLoop rest 0 0 = RLOut.done acc n) :
    mqtt_unpack_fixed_header (b0 :: rest) =
      (if mqtt_fixed_header_rule_violation ⟨b0 >>> 4, b0 &&& 15, acc⟩ ≠ 0 then
        (mqtt_fixed_header_rule_violation ⟨b0 >>> 4, b0 &&& 15, acc⟩,
          (⟨b0 >>> 4, b0 &&& 15, acc⟩ : MqttFixedHeader))
      else if (b0 :: rest).length - (1 + n) < acc then (0, ⟨b0 >>> 4, b0 &&& 15, acc⟩)
      else ((1 + n : Int), ⟨b0 >>> 4, b0 &&& 15, acc⟩)) := by
  rw [mqtt_unpack_fixed_header, hdone]

/-- C1 amended: for every byte buffer holding a complete fixed header whose
control type is legal, `mqtt_unpack_fixed_header` fails with
`MQTT_ERROR_CONTROL_INVALID_FLAGS` if and only if the 4 flag bits, xored with
the per-type required flags and restricted to the per-type mask, equal
exactly 1 (not: are nonzero); in particular a SUBSCRIBE header with flags
`0011` is rejected with that error while one with flags `0000` is accepted. -/
theorem C1_amended (b0 : Nat) (rest : List Nat) (acc n : Nat)
    (hdone : rlLoop rest 0 0 = RLOut.done acc n)
    (hvalid : control_type_is_valid.getD (b0 >>> 4) 0 = 1) :
    (mqtt_unpack_fixed_header (b0 :: rest)).1 = MQTT_ERROR_CONTROL_INVALID_FLAGS ↔
      (((b0 &&& 15) ^^^ required_flags.getD (b0 >>> 4) 0) &&&
        mask_required_flags.getD (b0 >>> 4) 0) = 1 := by
  have hrule : mqtt_fixed_header_rule_violation ⟨b0 >>> 4, b0 &&& 15, acc⟩ =
      (if (((b0 &&& 15) ^^^ required_flags.getD (b0 >>> 4) 0) &&&
          mask_required_flags.getD (b0 >>> 4) 0) = 1
       then MQTT_ERROR_CONTROL_INVALID_FLAGS else 0) := by
    unfold mqtt_fixed_header_rule_violation
    dsimp only
    rw [if_neg (by simp only [hvalid]; decide)]
  rw [unpack_done_eval b0 rest acc n hdone, hrule]
  by_cases hm : (((b0 &&& 15) ^^^ required_flags.getD (b0 >>> 4) 0) &&&
      mask_required_flags.getD (b0 >>> 4) 0) = 1
  · rw [if_pos hm]
    rw [if_pos (by decide : MQTT_ERROR_CONTROL_INVALID_FLAGS ≠ 0)]
    exact ⟨fun _ => hm, fun _ => rfl⟩
  · rw [if_neg hm]
    rw [if_neg (by simp : ¬((0 : Int) ≠ 0))]
    constructor
    · intro h
      exfalso
      split at h
      · norm_num [MQTT_ERROR_CONTROL_INVALID_FLAGS] at h
      · simp only [MQTT_ERROR_CONTROL_INVALID_FLAGS] at h
        omega
    · intro h
      exact absurd h hm

/-- C1 witness: a SUBSCRIBE header with flags `0011` (masked xor exactly 1)
is rejected with `MQTT_ERROR_CONTROL_INVALID_FLAGS`. -/
theorem C1_witness :
    (mqtt_unpack_fixed_header [131, 0]).1 = MQTT_ERROR_CONTROL_INVALID_FLAGS :=
  (C1_amended 131 [0] 0 1 (by decide) (by decide)).mpr (by decide)

/-- Evaluation of `mqtt_pack_fixed_header` once the rule check has passed and
the encode loop has succeeded. -/
theorem pack_done_eval (ct cf rl bufsz : Nat) (l : List Nat)
    (h : mqtt_fixed_header_rule_violation ⟨ct, cf, 0⟩ = 0)
    (hb : bufsz ≠ 0) (hp : packRL rl bufsz = some l) :
    mqtt_pack_fixed_header bufsz ⟨ct, cf, rl⟩ =
      (if bufsz - (1 + l.length) < rl then
        ((0 : Int), (((ct <<< 4) &&& 240) ||| (cf &&& 15)) :: l)
      else ((1 + l.length : Int), (((ct <<< 4) &&& 240) ||| (cf &&& 15)) :: l)) := by
  have hr : mqtt_fixed_header_rule_violation ⟨ct, cf, rl⟩ = 0 := h
  unfold mqtt_pack_fixed_header
  rw [hr]
  rw [if_neg (by decide : ¬((0 : Int) ≠ 0)), if_neg hb, hp]

/-- C3 counterexample: packing a header whose remaining length is `2^28`
(which needs a 5th continuation byte) does not fail with
`MQTT_ERROR_INVALID_REMAINING_LENGTH`; `mqtt_pack_fixed_header` has no such
check — it emits the 5-byte continuation chain and then returns 0 because
the 16-bit buffer can never also hold `2^28` payload bytes. -/
theorem C3_counterexample :
    (mqtt_pack_fixed_header 65535 ⟨3, 0, 2 ^ 28⟩).1 = 0 ∧
      (mqtt_pack_fixed_header 65535 ⟨3, 0, 2 ^ 28⟩).2.length = 6 ∧
      (0 : Int) ≠ MQTT_ERROR_INVALID_REMAINING_LENGTH := by
  refine ⟨?_, ?_, by decide⟩ <;> decide

/-- C3 amended: with a legal type/flags pair and the largest 16-bit buffer,
`mqtt_pack_fixed_header` encodes remaining lengths 0, 127, 128, 16383, 16384
as exactly 1, 1, 2, 2, 3 length bytes (total written bytes one more for the
control byte) under the 7-bits-plus-continuation scheme and succeeds; for
`2^28 - 1` it writes the 4-length-byte encoding but the call returns 0 since
no 16-bit buffer can also hold that many payload bytes; and for every value
needing a 5th continuation byte it returns 0 (the buffer-too-small outcome),
not `MQTT_ERROR_INVALID_REMAINING_LENGTH` — that check exists only in
`mqtt_unpack_fixed_header`, which rejects a 5-byte continuation chain. -/
theorem C3_amended (ct cf : Nat)
    (h : mqtt_fixed_header_rule_violation ⟨ct, cf, 0⟩ = 0) :
    ((mqtt_pack_fixed_header 65535 ⟨ct, cf, 0⟩).1 = 1 + 1 ∧
      (mqtt_pack_fixed_header 65535 ⟨ct, cf, 0⟩).2.length = 1 + 1) ∧
    ((mqtt_pack_fixed_header 65535 ⟨ct, cf, 127⟩).1 = 1 + 1 ∧
      (mqtt_pack_fixed_header 65535 ⟨ct, cf, 127⟩).2.length = 1 + 1) ∧
    ((mqtt_pack_fixed_header 65535 ⟨ct, cf, 128⟩).1 = 1 + 2 ∧
      (mqtt_pack_fixed_header 65535 ⟨ct, cf, 128⟩).2.length = 1 + 2) ∧
    ((mqtt_pack_fixed_header 65535 ⟨ct, cf, 16383⟩).1 = 1 + 2 ∧
      (mqtt_pack_fixed_header 65535 ⟨ct, cf, 16383⟩).2.length = 1 + 2) ∧
    ((mqtt_pack_fixed_header 65535 ⟨ct, cf, 16384⟩).1 = 1 + 3 ∧
      (mqtt_pack_fixed_header 65535 ⟨ct, cf, 16384⟩).2.length = 1 + 3) ∧
    ((mqtt_pack_fixed_header 65535 ⟨ct, cf, 2 ^ 28 - 1⟩).1 = 0 ∧
      (mqtt_pack_fixed_header 65535 ⟨ct, cf, 2 ^ 28 - 1⟩).2.length = 1 + 4) ∧
    (∀ rl : Nat, 2 ^ 28 - 1 < rl →
      (mqtt_pack_fixed_header 65535 ⟨ct, cf, rl⟩).1 = 0) ∧
    (mqtt_unpack_fixed_header [((ct <<< 4) &&& 240) ||| (cf &&& 15),
        128, 128, 128, 128, 1]).1 = MQTT_ERROR_INVALID_REMAINING_LENGTH := by
  have hb : (65535 : Nat) ≠ 0 := by decide
  refine ⟨?_, ?_, ?_, ?_, ?_, ?_, ?_, ?_⟩
  · rw [pack_done_eval ct cf 0 65535 [0] h hb rfl]
    rw [if_neg (by decide)]
    exact ⟨by norm_num, by simp⟩
  · rw [pack_done_eval ct cf 127 65535 [127] h hb rfl]
    rw [if_neg (by decide)]
    exact ⟨by norm_num, by simp⟩
  · rw [pack_done_eval ct cf 128 65535 [128, 1] h hb rfl]
    rw [if_neg (by decide)]
    exact ⟨by norm_num, by simp⟩
  · rw [pack_done_eval ct cf 16383 65535 [255, 127] h hb rfl]
    rw [if_neg (by decide)]
    exact ⟨by norm_num, by simp⟩
  · rw [pack_done_eval ct cf 16384 65535 [128, 128, 1] h hb rfl]
    rw [if_neg (by decide)]
    exact ⟨by norm_num, by simp⟩
  · rw [show (2 : Nat) ^ 28 - 1 = 268435455 by norm_num,
      pack_done_eval ct cf 268435455 65535 [255, 255, 255, 127] h hb rfl]
    rw [if_pos (by decide)]
    exact ⟨rfl, by simp⟩
  · intro rl hrl
    cases hp : packRL rl 65535 with
    | none =>
      have hr : mqtt_fixed_header_rule_violation ⟨ct, cf, rl⟩ = 0 := h
      unfold mqtt_pack_fixed_header
      rw [hr]
      rw [if_neg (by decide : ¬((0 : Int) ≠ 0)), if_neg hb, hp]
    | some l =>
      rw [pack_done_eval ct cf rl 65535 l h hb hp]
      rw [if_pos (by omega : 65535 - (1 + l.length) < rl)]
  · rw [mqtt_unpack_fixed_header]
    have : rlLoop [128, 128, 128, 128, 1] 0 0 =
        RLOut.abort MQTT_ERROR_INVALID_REMAINING_LENGTH 0 := by decide
    rw [this]

/-- C3 witness: instantiating the amended claim for a PUBLISH header with
flags 0 and extracting the 5th-byte conjunct at `2^28`. -/
theorem C3_witness :
    (mqtt_pack_fixed_header 65535 ⟨3, 0, 2 ^ 28⟩).1 = 0 ∧
      (mqtt_pack_fixed_header 65535 ⟨3, 0, 16384⟩).1 = 1 + 3 :=
  ⟨(C3_amended 3 0 (by decide)).2.2.2.2.2.2.1 (2 ^ 28) (by norm_num),
    ((C3_amended 3 0 (by decide)).2.2.2.2.1).1⟩

/-- Legality of the control type forces it below the table length 16. -/
theorem rule_ok_ct_lt (fh : MqttFixedHeader)
    (h : mqtt_fixed_header_rule_violation fh = 0) : fh.control_type < 16 := by
  by_contra hge
  have hd : control_type_is_valid.getD fh.control_type 0 = 0 :=
    List.getD_eq_default _ _ (by simp [control_type_is_valid]; omega)
  unfold mqtt_fixed_header_rule_violation at h
  rw [if_pos (by rw [hd]; decide)] at h
  exact absurd h (by decide)

/-- C7 confirmed: for every fixed header with a legal control type, flags
(4 bits) accepted by the per-type validation, and remaining length at most
`2^28 - 1`, whenever `mqtt_pack_fixed_header` succeeds on a buffer (which
the claim's "large enough buffer" guarantees), running
`mqtt_unpack_fixed_header` on the produced bytes followed by the
`remaining_length` payload bytes succeeds, consumes exactly the bytes pack
produced, and returns a header equal to the original. -/
theorem C7_roundtrip (ct cf rl bufsz : Nat) (payload : List Nat)
    (hcf : cf < 16) (hrl : rl ≤ 2 ^ 28 - 1) (hpl : payload.length = rl)
    (hpos : 0 < (mqtt_pack_fixed_header bufsz ⟨ct, cf, rl⟩).1) :
    mqtt_unpack_fixed_header ((mqtt_pack_fixed_header bufsz ⟨ct, cf, rl⟩).2 ++ payload) =
      ((mqtt_pack_fixed_header bufsz ⟨ct, cf, rl⟩).1,
        (⟨ct, cf, rl⟩ : MqttFixedHeader)) := by
  have hrule : mqtt_fixed_header_rule_violation ⟨ct, cf, rl⟩ = 0 := by
    rcases lt_or_le 0 (mqtt_fixed_header_rule_violation ⟨ct, cf, rl⟩) with hgt | hle
    · exact absurd hgt (by simpa using rule_violation_nonpos ⟨ct, cf, rl⟩)
    · rcases lt_or_eq_of_le hle with hlt | heq
      · exfalso
        unfold mqtt_pack_fixed_header at hpos
        rw [if_pos (by omega : mqtt_fixed_header_rule_violation ⟨ct, cf, rl⟩ ≠ 0)] at hpos
        exact absurd hpos (by omega)
      · exact heq
  have hb : bufsz ≠ 0 := by
    rintro rfl
    unfold mqtt_pack_fixed_header at hpos
    rw [hrule] at hpos
    rw [if_neg (by decide : ¬((0 : Int) ≠ 0)), if_pos rfl] at hpos
    exact absurd hpos (by decide)
  obtain ⟨l, hl⟩ : ∃ l, packRL rl bufsz = some l := by
    cases hp : packRL rl bufsz with
    | none =>
      exfalso
      unfold mqtt_pack_fixed_header at hpos
      rw [hrule] at hpos
      rw [if_neg (by decide : ¬((0 : Int) ≠ 0)), if_neg hb, hp] at hpos
      simp at hpos
    | some l => exact ⟨l, rfl⟩
  have heval := pack_done_eval ct cf rl bufsz l hrule hb hl
  have hfit : ¬(bufsz - (1 + l.length) < rl) := by
    intro hc
    rw [heval, if_pos hc] at hpos
    simp at hpos
  have hpack : mqtt_pack_fixed_header bufsz ⟨ct, cf, rl⟩ =
      ((1 + l.length : Int), (((ct <<< 4) &&& 240) ||| (cf &&& 15)) :: l) := by
    rw [heval, if_neg hfit]
  have hct : ct < 16 := rule_ok_ct_lt ⟨ct, cf, rl⟩ hrule
  have hlen : 7 * l.length + 0 ≤ 28 := by
    have h4 : l.length ≤ 4 := packRL_length l rl bufsz 4 hl (by norm_num; omega) (by norm_num)
    omega
  have hloop : rlLoop (l ++ payload) 0 0 = RLOut.done rl l.length := by
    have := packRL_sound l rl bufsz hl 0 0 payload hlen
    simpa using this
  rw [hpack]
  simp only [List.cons_append]
  rw [unpack_done_eval _ _ _ _ hloop]
  rw [(byte_compose ct hct cf hcf).1, (byte_compose ct hct cf hcf).2]
  rw [if_neg (by rw [hrule]; decide)]
  rw [if_neg (by simp; omega)]

/-- C7 witness: round trip at a concrete PUBLISH header. -/
theorem C7_witness :
    mqtt_unpack_fixed_header ((mqtt_pack_fixed_header 10 ⟨3, 0, 2⟩).2 ++ [7, 8]) =
      ((mqtt_pack_fixed_header 10 ⟨3, 0, 2⟩).1, (⟨3, 0, 2⟩ : MqttFixedHeader)) :=
  C7_roundtrip 3 0 2 10 [7, 8] (by decide) (by norm_num) rfl (by decide)

/-- Modelled from the spec: `MQTT_PROTOCOL_LEVEL` from the missing header
(protocol level byte of the CONNECT variable header). -/
def MQTT_PROTOCOL_LEVEL : Nat := 4

/-- Modelled from the spec: CONNECT flag bit (missing mqtt.h). -/
def MQTT_CONNECT_RESERVED : Nat := 1

/-- Modelled from the spec: CONNECT flag bit (missing mqtt.h). -/
def MQTT_CONNECT_WILL_FLAG : Nat := 4

/-- Modelled from the spec: CONNECT flag bit (missing mqtt.h). -/
def MQTT_CONNECT_WILL_RETAIN : Nat := 32

/-- Modelled from the spec: CONNECT flag bit (missing mqtt.h). -/
def MQTT_CONNECT_PASSWORD : Nat := 64

/-- Modelled from the spec: CONNECT flag bit (missing mqtt.h). -/
def MQTT_CONNECT_USER_NAME : Nat := 128

/-- Modelled from the spec: PUBLISH DUP flag bit (missing mqtt.h). -/
def MQTT_PUBLISH_DUP : Nat := 8

/-- Modelled from the spec: CONNACK return code "accepted" (missing mqtt.h). -/
def MQTT_CONNACK_ACCEPTED : Nat := 0

/-- Modelled from the spec: CONNACK return code "identifier rejected"
(missing mqtt.h). -/
def MQTT_CONNACK_REFUSED_IDENTIFIER_REJECTED : Nat := 2

/-- Modelled from the spec: SUBACK failure return code 0x80 (missing mqtt.h). -/
def MQTT_SUBACK_FAILURE : Nat := 128

/-- `mqtt_pack_uint16` of mqtt.c: the STM8 target is big-endian and
`UIP_BYTE_ORDER` makes `HTONS` the identity, so the two bytes are written in
big-endian order. -/
def mqtt_pack_uint16 (integer : Nat) : List Nat :=
  [integer / 256 % 256, integer % 256]

/-- `mqtt_unpack_uint16` of mqtt.c (big-endian decode). -/
def mqtt_unpack_uint16 (buf : List Nat) : Nat :=
  buf.getD 0 0 * 256 + buf.getD 1 0

/-- `mqtt_pack_str` of mqtt.c: a 2-byte big-endian length prefix followed by
the string bytes (strings are modelled as byte lists without the NUL). -/
def mqtt_pack_str (str : List Nat) : List Nat :=
  mqtt_pack_uint16 str.length ++ str

/-- `struct mqtt_queued_message` of the missing header: an entry of the send
queue.  `start` is the byte offset of the frame in the arena (the C code
stores a pointer into the send buffer). -/
structure QueuedMessage where
  start : Nat
  size : Nat
  state : Nat
  control_type : Nat
  packet_id : Nat
  time_sent : Nat
deriving DecidableEq, Repr

instance : Inhabited QueuedMessage := ⟨⟨0, 0, 0, 0, 0, 0⟩⟩

/-- Modelled from the spec: `sizeof(struct mqtt_queued_message)` under the
target compiler (missing header; the exact value only shifts the metadata
frontier used by `mqtt_mq_currsz` and is immaterial to the claims). -/
def sizeofQueuedMessage : Nat := 12

/-- `struct mqtt_message_queue` of the missing header, as used by mqtt.c:
`arena` holds the frame bytes written so far (so `curr = arena.length` is the
low-address cursor), and `entries` lists the registered messages oldest
first, mirroring `mqtt_mq_get(mq, 0) .. mqtt_mq_get(mq, length-1)` (the C
metadata stack grows downward from `mem_end`, so `mqtt_mq_get(mq, 0)` at
`mem_end - 1` is the first message ever registered). -/
structure MessageQueue where
  mem_size : Nat
  arena : List Nat
  entries : List QueuedMessage
  curr_sz : Nat
deriving DecidableEq, Repr

/-- The `mqtt_mq_currsz` macro of the missing header: free space is the gap
between the would-be next metadata slot (`queue_tail - 1`) and `curr`, or 0
when they have met or crossed. -/
def mqttMqCurrSz (mem_size curr nentries : Nat) : Nat :=
  let lim := mem_size - (nentries + 1) * sizeofQueuedMessage
  if lim ≤ curr then 0 else lim - curr

/-- `mqtt_mq_init` of mqtt.c (buffer pointers become the empty arena). -/
def mqtt_mq_init (bufsz : Nat) : MessageQueue :=
  { mem_size := bufsz, arena := [], entries := [],
    curr_sz := mqttMqCurrSz bufsz 0 0 }

/-- `mqtt_mq_register` of mqtt.c.  The C caller has already written `nbytes`
frame bytes at `curr`; the embedding passes those bytes, appends them to the
arena and pushes the metadata entry (start = old curr, size = nbytes, state
UNSENT), then recomputes `curr_sz`. -/
def mqtt_mq_register (mq : MessageQueue) (frameBytes : List Nat) : MessageQueue :=
  { mq with
    arena := mq.arena ++ frameBytes,
    entries := mq.entries ++
      [{ start := mq.arena.length, size := frameBytes.length,
         state := MQTT_QUEUED_UNSENT, control_type := 0, packet_id := 0,
         time_sent := 0 }],
    curr_sz := mqttMqCurrSz mq.mem_size (mq.arena.length + frameBytes.length)
      (mq.entries.length + 1) }

/-- `mqtt_mq_clean` of mqtt.c.  The scan starts at `mqtt_mq_get(mq, 0)` (the
oldest entry, at the high end of queue memory) and walks toward
`queue_tail`, stopping at the first entry whose state is not
`MQTT_QUEUED_COMPLETE`; `k` is thus the length of the completed run at the
oldest end.  If the scan ran past `queue_tail`, everything is removed in
O(1); if it stopped at the oldest entry, nothing happens; otherwise the
surviving frame bytes are moved down to the arena start, the surviving
metadata is shifted back to the high end, and every survivor's `start` is
rebased by the removed byte count. -/
def mqtt_mq_clean (mq : MessageQueue) : MessageQueue :=
  let k := (mq.entries.takeWhile (fun e => e.state == MQTT_QUEUED_COMPLETE)).length
  if k = mq.entries.length then
    { mq with arena := [], entries := [], curr_sz := mqttMqCurrSz mq.mem_size 0 0 }
  else if k = 0 then mq
  else
    let new_head := mq.entries.getD k default
    let removing := new_head.start
    { mq with
      arena := mq.arena.drop removing,
      entries := (mq.entries.drop k).map (fun e => { e with start := e.start - removing }),
      curr_sz := mqttMqCurrSz mq.mem_size (mq.arena.drop removing).length
        (mq.entries.length - k) }

/-- `mqtt_mq_find` of mqtt.c: scan from `mqtt_mq_get(mq, 0)` (oldest) toward
`queue_tail`, returning the first entry of the control type with matching
packet id (or, when no id is given, the first not-yet-complete one).  The
embedding returns the index of the found entry into `entries`. -/
def mqtt_mq_find (mq : MessageQueue) (control_type : Nat) (packet_id : Option Nat) :
    Option Nat :=
  mq.entries.findIdx? (fun e =>
    e.control_type == control_type &&
      (match packet_id with
       | none => e.state != MQTT_QUEUED_COMPLETE
       | some pid => pid == e.packet_id))

/-- `mqtt_mq_length` of the missing header (`mem_end - queue_tail`). -/
def mqtt_mq_length (mq : MessageQueue) : Nat := mq.entries.length

/-- One step of the LFSR in `mqtt_next_pid` of mqtt.c: shift right by one and
xor the tap mask 0xB400 when the shifted-out bit was set. -/
def nextPidStep (lfsr : Nat) : Nat :=
  if lfsr % 2 = 1 then (lfsr / 2) ^^^ 46080 else lfsr / 2

/-- The candidate-and-collision-scan do-while loop of `mqtt_next_pid`: step
the LFSR, scan every queue entry's `packet_id` for a collision, regenerate
while one exists.  `fuel` bounds the iterations (the C loop has no bound;
`none` models non-termination, which cannot arise from the bounded C queue). -/
def nextPidLoop : Nat → List Nat → Nat → Option Nat
  | 0, _, _ => none
  | fuel + 1, pids, lfsr =>
    let cand := nextPidStep lfsr
    if cand ∈ pids then nextPidLoop fuel pids cand else some cand

/-- `struct mqtt_client` of the missing header, restricted to the fields
mqtt.c reads or writes (the receive-buffer descriptor and the callback
pointer are not needed by any claim and are omitted). -/
structure MqttClient where
  mq : MessageQueue
  error : Int
  response_timeout : Nat
  number_of_timeouts : Nat
  pid_lfsr : Nat
  send_offset : Nat
  keep_alive : Nat
  time_of_last_send : Nat
deriving DecidableEq, Repr

/-- `mqtt_next_pid` of mqtt.c: reseed a zero LFSR with 163, then run the
loop; on success the client's `pid_lfsr` holds the returned identifier. -/
def mqtt_next_pid (client : MqttClient) : Option (Nat × MqttClient) :=
  let seed := if client.pid_lfsr = 0 then 163 else client.pid_lfsr
  match nextPidLoop 65536 (client.mq.entries.map (fun e => e.packet_id)) seed with
  | none => none
  | some pid => some (pid, { client with pid_lfsr := pid })

/-- `mqtt_init` of mqtt.c (null-pointer arguments cannot arise in the
embedding; the receive-buffer bookkeeping is outside the claims). -/
def mqtt_init (sendbufsz : Nat) : MqttClient :=
  { mq := mqtt_mq_init sendbufsz,
    error := MQTT_ERROR_CONNECT_NOT_CALLED,
    response_timeout := 30,
    number_of_timeouts := 0,
    pid_lfsr := 0,
    send_offset := 0,
    keep_alive := 0,
    time_of_last_send := 0 }

/-- `mqtt_pack_connection_request` of mqtt.c.  Strings are byte lists;
`user_name`/`password` are `Option` to model NULL.  This application always
supplies `will_topic`/`will_message`, and the source unconditionally sets
`MQTT_CONNECT_WILL_FLAG` and `MQTT_CONNECT_WILL_RETAIN`. -/
def mqtt_pack_connection_request (bufsz : Nat) (client_id will_topic will_message : List Nat)
    (user_name password : Option (List Nat)) (connect_flags keep_alive : Nat) :
    Int × List Nat :=
  let cflags := connect_flags &&& (255 - MQTT_CONNECT_RESERVED)
  let remaining_length := 10 + (client_id.length + 2)
  let cflags := (cflags ||| MQTT_CONNECT_WILL_FLAG) ||| MQTT_CONNECT_WILL_RETAIN
  let remaining_length := remaining_length + (will_topic.length + 2) + (2 + will_message.length)
  let cflags := match user_name with
    | some _ => cflags ||| MQTT_CONNECT_USER_NAME
    | none => cflags &&& (255 - MQTT_CONNECT_USER_NAME)
  let remaining_length := remaining_length +
    (match user_name with | some u => u.length + 2 | none => 0)
  let cflags := match password with
    | some _ => cflags ||| MQTT_CONNECT_PASSWORD
    | none => cflags &&& (255 - MQTT_CONNECT_PASSWORD)
  let remaining_length := remaining_length +
    (match password with | some p => p.length + 2 | none => 0)
  let fixed_header : MqttFixedHeader := ⟨MQTT_CONTROL_CONNECT, 0, remaining_length⟩
  let rv := mqtt_pack_fixed_header bufsz fixed_header
  if rv.1 ≤ 0 then rv
  else if bufsz - rv.1.toNat < remaining_length then (0, rv.2)
  else
    let body := [0, 4, 77, 81, 84, 84, MQTT_PROTOCOL_LEVEL, cflags] ++
      mqtt_pack_uint16 keep_alive ++
      mqtt_pack_str client_id ++
      (if cflags &&& MQTT_CONNECT_WILL_FLAG ≠ 0 then
        mqtt_pack_str will_topic ++ mqtt_pack_uint16 will_message.length ++ will_message
      else []) ++
      (if cflags &&& MQTT_CONNECT_USER_NAME ≠ 0 then
        mqtt_pack_str (user_name.getD []) else []) ++
      (if cflags &&& MQTT_CONNECT_PASSWORD ≠ 0 then
        mqtt_pack_str (password.getD []) else [])
    ((rv.1 + remaining_length : Int), rv.2 ++ body)

/-- `mqtt_pack_publish_request` of mqtt.c (null-pointer arguments cannot
arise in the embedding; the source forces the DUP flag to 0). -/
def mqtt_pack_publish_request (bufsz : Nat) (topic_name : List Nat) (packet_id : Nat)
    (application_message : List Nat) (publish_flags : Nat) : Int × List Nat :=
  let remaining_length := (topic_name.length + 2) + application_message.length
  let pflags := publish_flags &&& (255 - MQTT_PUBLISH_DUP)
  let fixed_header : MqttFixedHeader := ⟨MQTT_CONTROL_PUBLISH, pflags, remaining_length⟩
  let rv := mqtt_pack_fixed_header bufsz fixed_header
  if rv.1 ≤ 0 then rv
  else if bufsz - rv.1.toNat < remaining_length then (0, rv.2)
  else ((rv.1 + remaining_length : Int),
    rv.2 ++ mqtt_pack_str topic_name ++ application_message)

/-- `mqtt_pack_subscribe_request` of mqtt.c (the single-topic variant used
by this application; the payload is the packet id, the topic, and the
requested max QoS byte). -/
def mqtt_pack_subscribe_request (bufsz : Nat) (packet_id : Nat) (topic : List Nat)
    (max_qos_level : Nat) : Int × List Nat :=
  let remaining_length := 2 + (topic.length + 2 + 1)
  let fixed_header : MqttFixedHeader := ⟨MQTT_CONTROL_SUBSCRIBE, 2, remaining_length⟩
  let rv := mqtt_pack_fixed_header bufsz fixed_header
  if rv.1 ≤ 0 then rv
  else if bufsz - rv.1.toNat < remaining_length then (0, rv.2)
  else ((rv.1 + remaining_length : Int),
    rv.2 ++ mqtt_pack_uint16 packet_id ++ mqtt_pack_str topic ++ [max_qos_level % 256])

/-- `mqtt_pack_ping_request` of mqtt.c. -/
def mqtt_pack_ping_request (bufsz : Nat) : Int × List Nat :=
  mqtt_pack_fixed_header bufsz ⟨MQTT_CONTROL_PINGREQ, 0, 0⟩

/-- `mqtt_pack_disconnect` of mqtt.c. -/
def mqtt_pack_disconnect (bufsz : Nat) : Int × List Nat :=
  mqtt_pack_fixed_header bufsz ⟨MQTT_CONTROL_DISCONNECT, 0, 0⟩

/-- Helper for the `msg->control_type = ...` assignment the client functions
perform on the entry just returned by `mqtt_mq_register`. -/
def mqttSetLastCt (mq : MessageQueue) (control_type : Nat) : MessageQueue :=
  { mq with entries := mq.entries.dropLast ++
      [{ mq.entries.getLastD default with control_type := control_type }] }

/-- Helper for the `msg->control_type`/`msg->packet_id` assignments on the
entry just returned by `mqtt_mq_register`. -/
def mqttSetLastCtPid (mq : MessageQueue) (control_type packet_id : Nat) : MessageQueue :=
  { mq with entries := mq.entries.dropLast ++
      [{ mq.entries.getLastD default with
          control_type := control_type, packet_id := packet_id }] }

/-- `mqtt_connect` of mqtt.c: record the keep-alive, convert the initial
`MQTT_ERROR_CONNECT_NOT_CALLED` to `MQTT_OK`, short-circuit on any other
stored negative error, otherwise clean the queue, pack the CONNECT frame
into the free space, and register it (note the source only aborts on
`rv < 0`, so a 0 return from packing still registers a zero-length entry). -/
def mqtt_connect (client : MqttClient) (client_id will_topic will_message : List Nat)
    (user_name password : Option (List Nat)) (connect_flags keep_alive : Nat) :
    Int × MqttClient :=
  let client := { client with keep_alive := keep_alive }
  let client :=
    if client.error = MQTT_ERROR_CONNECT_NOT_CALLED then { client with error := MQTT_OK }
    else client
  if client.error < 0 then (client.error, client)
  else
    let client := { client with mq := mqtt_mq_clean client.mq }
    let rv := mqtt_pack_connection_request client.mq.curr_sz client_id will_topic
      will_message user_name password connect_flags keep_alive
    if rv.1 < 0 then (rv.1, { client with error := rv.1 })
    else
      let mq := mqtt_mq_register client.mq (rv.2.take rv.1.toNat)
      (MQTT_OK, { client with mq := mqttSetLastCt mq MQTT_CONTROL_CONNECT })

/-- `mqtt_publish` of mqtt.c: generate a packet id first (the source calls
`mqtt_next_pid` before the error check), short-circuit on a stored negative
error, otherwise clean, pack, and register; only `rv < 0` aborts, so a 0
return from packing still registers a zero-length entry and returns
`MQTT_OK`.  `none` models the (unreachable) non-termination of the packet-id
loop. -/
def mqtt_publish (client : MqttClient) (topic_name application_message : List Nat)
    (publish_flags : Nat) : Option (Int × MqttClient) :=
  match mqtt_next_pid client with
  | none => none
  | some (packet_id, client) =>
    if client.error < 0 then some (client.error, client)
    else
      let client := { client with mq := mqtt_mq_clean client.mq }
      let rv := mqtt_pack_publish_request client.mq.curr_sz topic_name packet_id
        application_message publish_flags
      if rv.1 < 0 then some (rv.1, { client with error := rv.1 })
      else
        let mq := mqtt_mq_register client.mq (rv.2.take rv.1.toNat)
        some (MQTT_OK, { client with mq := mqttSetLastCtPid mq MQTT_CONTROL_PUBLISH packet_id })

/-- `mqtt_subscribe` of mqtt.c (same shape as `mqtt_publish`). -/
def mqtt_subscribe (client : MqttClient) (topic_name : List Nat) (max_qos_level : Nat) :
    Option (Int × MqttClient) :=
  match mqtt_next_pid client with
  | none => none
  | some (packet_id, client) =>
    if client.error < 0 then some (client.error, client)
    else
      let client := { client with mq := mqtt_mq_clean client.mq }
      let rv := mqtt_pack_subscribe_request client.mq.curr_sz packet_id topic_name
        max_qos_level
      if rv.1 < 0 then some (rv.1, { client with error := rv.1 })
      else
        let mq := mqtt_mq_register client.mq (rv.2.take rv.1.toNat)
        some (MQTT_OK, { client with mq := mqttSetLastCtPid mq MQTT_CONTROL_SUBSCRIBE packet_id })

/-- `mqtt_ping` of mqtt.c. -/
def mqtt_ping (client : MqttClient) : Int × MqttClient :=
  if client.error < 0 then (client.error, client)
  else
    let client := { client with mq := mqtt_mq_clean client.mq }
    let rv := mqtt_pack_ping_request client.mq.curr_sz
    if rv.1 < 0 then (rv.1, { client with error := rv.1 })
    else
      let mq := mqtt_mq_register client.mq (rv.2.take rv.1.toNat)
      (MQTT_OK, { client with mq := mqttSetLastCt mq MQTT_CONTROL_PINGREQ })

/-- `mqtt_disconnect` of mqtt.c. -/
def mqtt_disconnect (client : MqttClient) : Int × MqttClient :=
  if client.error < 0 then (client.error, client)
  else
    let client := { client with mq := mqtt_mq_clean client.mq }
    let rv := mqtt_pack_disconnect client.mq.curr_sz
    if rv.1 < 0 then (rv.1, { client with error := rv.1 })
    else
      let mq := mqtt_mq_register client.mq (rv.2.take rv.1.toNat)
      (MQTT_OK, { client with mq := mqttSetLastCt mq MQTT_CONTROL_DISCONNECT })

/-- Client with an empty send queue whose free space (26 - 12 = 14 bytes) is
one byte less than the 15-byte encoded publish frame used in C2. -/
def c2clientShort : MqttClient :=
  { mqtt_init 26 with error := MQTT_OK, pid_lfsr := 1 }

/-- Client with an empty send queue whose free space (27 - 12 = 15 bytes) is
exactly the 15-byte encoded publish frame used in C2. -/
def c2clientExact : MqttClient :=
  { mqtt_init 27 with error := MQTT_OK, pid_lfsr := 1 }

/-- C2: evaluation of the code at the claim's failing input.  The publish
frame for topic `[116]` with a 10-byte payload encodes to 15 bytes
(fixed header 2 + topic 3 + payload 10).  With free space 14 (one byte
short), `mqtt_pack_publish_request` returns 0, but `mqtt_publish` only
aborts on `rv < 0`, so it registers a zero-length PUBLISH entry and returns
`MQTT_OK` — the queue is mutated and no error is reported, contradicting the
claim (which the spec's backpressure section supports).  With exactly enough
free space (15) the call succeeds and registers the 15-byte message. -/
theorem C2_publish_capacity_bug :
    (mqtt_publish c2clientShort [116] (List.replicate 10 65) 0).map
        (fun r => (r.1, r.2.mq.entries.length, (r.2.mq.entries.getD 0 default).size,
          r.2.mq.arena.length)) = some (MQTT_OK, 1, 0, 0) ∧
    (mqtt_publish c2clientExact [116] (List.replicate 10 65) 0).map
        (fun r => (r.1, r.2.mq.entries.length, (r.2.mq.entries.getD 0 default).size,
          r.2.mq.arena.length)) = some (MQTT_OK, 1, 15, 15) ∧
    c2clientShort.mq.curr_sz = 14 ∧ c2clientExact.mq.curr_sz = 15 ∧
    c2clientShort.mq.entries.length = 0 := by
  refine ⟨?_, ?_, by decide, by decide, by decide⟩ <;> decide

/-- The LFSR step maps a nonzero 16-bit value to a nonzero 16-bit value. -/
theorem nextPidStep_ne_zero (l : Nat) (h0 : l ≠ 0) (hl : l < 65536) :
    nextPidStep l ≠ 0 ∧ nextPidStep l < 65536 := by
  unfold nextPidStep
  by_cases hodd : l % 2 = 1
  · rw [if_pos hodd]
    constructor
    · intro hz
      have := Nat.xor_eq_zero.mp hz
      omega
    · have h1 : l / 2 < 2 ^ 16 := by norm_num; omega
      have h2 : (46080 : Nat) < 2 ^ 16 := by norm_num
      have := Nat.xor_lt_two_pow h1 h2
      norm_num at this
      exact this
  · rw [if_neg hodd]
    omega

/-- Every identifier the candidate loop returns is nonzero, 16-bit, and
absent from the scanned packet-id list. -/
theorem nextPidLoop_sound : ∀ (fuel : Nat) (pids : List Nat) (lfsr pid : Nat),
    lfsr ≠ 0 → lfsr < 65536 → nextPidLoop fuel pids lfsr = some pid →
    pid ≠ 0 ∧ pid < 65536 ∧ pid ∉ pids := by
  intro fuel
  induction fuel with
  | zero => intro pids lfsr pid _ _ h; exact absurd h (by simp [nextPidLoop])
  | succ f ih =>
    intro pids lfsr pid h0 hl h
    rw [nextPidLoop] at h
    have hc := nextPidStep_ne_zero lfsr h0 hl
    by_cases hin : nextPidStep lfsr ∈ pids
    · rw [if_pos hin] at h
      exact ih pids (nextPidStep lfsr) pid hc.1 hc.2 h
    · rw [if_neg hin] at h
      injection h with h1
      subst h1
      exact ⟨hc.1, hc.2, hin⟩

/-- C6 confirmed: whenever `mqtt_next_pid` returns (the C loop terminating),
the returned identifier is nonzero, fits in 16 bits, and differs from the
`packet_id` of every message in the send queue — in particular from every
pending acknowledgement-requiring message, so generating identifiers while
others are pending never duplicates a pending one. -/
theorem C6_next_pid (client : MqttClient) (pid : Nat) (client' : MqttClient)
    (hl : client.pid_lfsr < 65536)
    (h : mqtt_next_pid client = some (pid, client')) :
    pid ≠ 0 ∧ pid < 65536 ∧ ∀ e ∈ client.mq.entries, pid ≠ e.packet_id := by
  unfold mqtt_next_pid at h
  dsimp only at h
  cases hres : nextPidLoop 65536 (client.mq.entries.map (fun e => e.packet_id))
      (if client.pid_lfsr = 0 then 163 else client.pid_lfsr) with
  | none => rw [hres] at h; exact absurd h (by simp)
  | some q =>
    rw [hres] at h
    have hq : q = pid := by
      have := (Option.some.injEq _ _).mp h
      exact congrArg Prod.fst this
    subst hq
    have hseed0 : (if client.pid_lfsr = 0 then 163 else client.pid_lfsr) ≠ 0 := by
      split
      · decide
      · assumption
    have hseedl : (if client.pid_lfsr = 0 then 163 else client.pid_lfsr) < 65536 := by
      split
      · norm_num
      · exact hl
    obtain ⟨h1, h2, h3⟩ := nextPidLoop_sound 65536 _ _ _ hseed0 hseedl hres
    refine ⟨h1, h2, ?_⟩
    intro e he heq
    exact h3 (List.mem_map.mpr ⟨e, he, heq.symm⟩)

/-- C6 witness: from a freshly initialized client (LFSR seed 0 reseeds to
163) the first generated identifier is 46161. -/
theorem C6_witness :
    46161 ≠ 0 ∧ 46161 < 65536 ∧
      ∀ e ∈ (mqtt_init 26).mq.entries, 46161 ≠ e.packet_id :=
  C6_next_pid (mqtt_init 26) 46161 { mqtt_init 26 with pid_lfsr := 46161 }
    (by decide) (by decide)

/-- A successful `mqtt_next_pid` only updates the client's LFSR field. -/
theorem mqtt_next_pid_shape (c : MqttClient) (p : Nat) (c' : MqttClient)
    (h : mqtt_next_pid c = some (p, c')) : c' = { c with pid_lfsr := p } := by
  unfold mqtt_next_pid at h
  dsimp only at h
  cases hres : nextPidLoop 65536 (c.mq.entries.map (fun e => e.packet_id))
      (if c.pid_lfsr = 0 then 163 else c.pid_lfsr) with
  | none => rw [hres] at h; exact absurd h (by simp)
  | some q =>
    rw [hres] at h
    have := (Option.some.injEq _ _).mp h
    have hq : q = p := congrArg Prod.fst this
    subst hq
    exact ((Prod.mk.injEq _ _ _ _).mp this).2.symm

/-- `mqtt_pack_connection_request` never returns a negative value in the
embedding (the null-pointer paths cannot arise): the CONNECT fixed header
always passes the rule check, so packing yields 0 or a positive count. -/
theorem mqtt_pack_connection_request_nonneg (bufsz : Nat)
    (cid wt wm : List Nat) (un pw : Option (List Nat)) (cfl ka : Nat) :
    0 ≤ (mqtt_pack_connection_request bufsz cid wt wm un pw cfl ka).1 := by
  unfold mqtt_pack_connection_request
  dsimp only
  split
  · exact mqtt_pack_fixed_header_nonneg bufsz _ (by rw [rule_violation_rl_irrel]; decide)
  · split
    · norm_num
    · rename_i hgt _
      push_neg at hgt
      dsimp only
      omega

/-- C8 confirmed: once a client's stored error is negative (and not the
initial `MQTT_ERROR_CONNECT_NOT_CALLED`), `mqtt_connect`, `mqtt_publish` and
`mqtt_subscribe` each return that stored error, leave the send queue
unregistered/unchanged and keep the stored error; a client whose error is
the initial `MQTT_ERROR_CONNECT_NOT_CALLED` has it converted back to
`MQTT_OK` by `mqtt_connect`, which then returns `MQTT_OK`. -/
theorem C8_error_short_circuit (client : MqttClient)
    (h : client.error < 0) (hne : client.error ≠ MQTT_ERROR_CONNECT_NOT_CALLED) :
    (∀ cid wt wm un pw cfl ka,
      (mqtt_connect client cid wt wm un pw cfl ka).1 = client.error ∧
      (mqtt_connect client cid wt wm un pw cfl ka).2.mq = client.mq ∧
      (mqtt_connect client cid wt wm un pw cfl ka).2.error = client.error) ∧
    (∀ t m f rv c', mqtt_publish client t m f = some (rv, c') →
      rv = client.error ∧ c'.mq = client.mq ∧ c'.error = client.error) ∧
    (∀ t q rv c', mqtt_subscribe client t q = some (rv, c') →
      rv = client.error ∧ c'.mq = client.mq ∧ c'.error = client.error) ∧
    (∀ (c2 : MqttClient) cid wt wm un pw cfl ka,
      c2.error = MQTT_ERROR_CONNECT_NOT_CALLED →
      (mqtt_connect c2 cid wt wm un pw cfl ka).1 = MQTT_OK ∧
      (mqtt_connect c2 cid wt wm un pw cfl ka).2.error = MQTT_OK) := by
  refine ⟨?_, ?_, ?_, ?_⟩
  · intro cid wt wm un pw cfl ka
    unfold mqtt_connect
    dsimp only
    rw [if_neg hne, if_pos h]
    exact ⟨rfl, rfl, rfl⟩
  · intro t m f rv c' hp
    unfold mqtt_publish at hp
    cases hnp : mqtt_next_pid client with
    | none => rw [hnp] at hp; exact absurd hp (by simp)
    | some pc =>
      obtain ⟨p, c1⟩ := pc
      have hc1 := mqtt_next_pid_shape client p c1 hnp
      subst hc1
      rw [hnp] at hp
      dsimp only at hp
      rw [if_pos h] at hp
      have := (Option.some.injEq _ _).mp hp
      have h1 : client.error = rv := congrArg Prod.fst this
      have h2 : ({ client with pid_lfsr := p } : MqttClient) = c' :=
        congrArg Prod.snd this
      exact ⟨h1.symm, by rw [← h2], by rw [← h2]⟩
  · intro t q rv c' hp
    unfold mqtt_subscribe at hp
    cases hnp : mqtt_next_pid client with
    | none => rw [hnp] at hp; exact absurd hp (by simp)
    | some pc =>
      obtain ⟨p, c1⟩ := pc
      have hc1 := mqtt_next_pid_shape client p c1 hnp
      subst hc1
      rw [hnp] at hp
      dsimp only at hp
      rw [if_pos h] at hp
      have := (Option.some.injEq _ _).mp hp
      have h1 : client.error = rv := congrArg Prod.fst this
      have h2 : ({ client with pid_lfsr := p } : MqttClient) = c' :=
        congrArg Prod.snd this
      exact ⟨h1.symm, by rw [← h2], by rw [← h2]⟩
  · intro c2 cid wt wm un pw cfl ka h2
    unfold mqtt_connect
    dsimp only
    rw [if_pos (h2 : ({ c2 with keep_alive := ka } : MqttClient).error =
      MQTT_ERROR_CONNECT_NOT_CALLED)]
    rw [if_neg (by decide : ¬(MQTT_OK < 0))]
    rw [if_neg (by
      have := mqtt_pack_connection_request_nonneg
        (mqtt_mq_clean ({ c2 with keep_alive := ka, error := MQTT_OK } :
          MqttClient).mq).curr_sz cid wt wm un pw cfl ka
      omega)]
    exact ⟨rfl, rfl⟩

/-- C8 witness: a client with stored error `MQTT_ERROR_SUBSCRIBE_FAILED`
short-circuits all three calls, and the initial-error client is cleared by
connect. -/
theorem C8_witness :
    ((fun c8c : MqttClient =>
      (c8c.error < 0 ∧ c8c.error ≠ MQTT_ERROR_CONNECT_NOT_CALLED) ∧
      (mqtt_connect c8c [99] [119] [109] none none 2 60).1 = c8c.error ∧
      (mqtt_connect c8c [99] [119] [109] none none 2 60).2.mq = c8c.mq)
      { mqtt_init 64 with error := MQTT_ERROR_SUBSCRIBE_FAILED }) ∧
    (mqtt_connect (mqtt_init 64) [99] [119] [109] none none 2 60).1 = MQTT_OK := by
  have h := C8_error_short_circuit
    { mqtt_init 64 with error := MQTT_ERROR_SUBSCRIBE_FAILED }
    (by decide) (by decide)
  refine ⟨⟨⟨by decide, by decide⟩, ?_, ?_⟩, ?_⟩
  · exact (h.1 [99] [119] [109] none none 2 60).1
  · exact (h.1 [99] [119] [109] none none 2 60).2.1
  · exact (h.2.2.2 (mqtt_init 64) [99] [119] [109] none none 2 60 (by decide)).1

/-- Total frame bytes of a run of queue entries. -/
def sumSizes (es : List QueuedMessage) : Nat := (es.map (fun e => e.size)).sum

/-- Well-formedness of the queue layout that `mqtt_mq_register` maintains:
each entry's `start` offset is the end of the previous entry's bytes. -/
def entryLayoutB : Nat → List QueuedMessage → Bool
  | _, [] => true
  | off, e :: es => e.start == off && entryLayoutB (off + e.size) es

/-- Under the register layout, the `k`-th entry starts at the total size of
the entries before it. -/
theorem entryLayout_start : ∀ (es : List QueuedMessage) (off k : Nat),
    entryLayoutB off es = true → k < es.length →
    (es.getD k default).start = off + sumSizes (es.take k) := by
  intro es
  induction es with
  | nil => intro off k _ hk; simp at hk
  | cons e es ih =>
    intro off k hl hk
    rw [entryLayoutB, Bool.and_eq_true] at hl
    cases k with
    | zero =>
      have h1 : e.start = off := by simpa using hl.1
      simpa [sumSizes] using h1
    | succ k' =>
      have := ih (off + e.size) k' hl.2 (by simpa using Nat.lt_of_succ_lt_succ hk)
      simp only [List.getD_cons_succ, List.take_succ_cons]
      rw [this]
      simp [sumSizes]
      omega

/-- Splitting the total size at an index. -/
theorem sumSizes_take_drop (es : List QueuedMessage) (k : Nat) :
    sumSizes (es.take k) + sumSizes (es.drop k) = sumSizes es := by
  conv_rhs => rw [← List.take_append_drop k es]
  simp [sumSizes]

/-- Record eta for the rebase map at offset 0. -/
theorem qm_rebase_zero (e : QueuedMessage) : ({ e with start := e.start - 0 }) = e := by
  cases e
  simp

/-- C4 counterexample: a queue whose newest (most recent) entry is COMPLETE
while the older entry is UNSENT.  The claim says compaction removes the
most-recent completed run (2 bytes here); the code's scan starts at the
oldest entry (`mqtt_mq_get(mq, 0)` is at `mem_end - 1`, the first ever
registered), stops immediately, and removes nothing. -/
def c4queue : MessageQueue :=
  { mem_size := 60,
    arena := [1, 2, 3, 4, 5],
    entries := [⟨0, 3, MQTT_QUEUED_UNSENT, 3, 0, 0⟩, ⟨3, 2, MQTT_QUEUED_COMPLETE, 3, 0, 0⟩],
    curr_sz := mqttMqCurrSz 60 5 2 }

/-- C4 counterexample theorem: on `c4queue` (newest entry COMPLETE, oldest
not), `mqtt_mq_clean` is the identity — occupied arena bytes stay 5 instead
of shrinking by the completed entry's 2 bytes. -/
theorem C4_counterexample :
    mqtt_mq_clean c4queue = c4queue ∧
      (c4queue.entries.getD 1 default).state = MQTT_QUEUED_COMPLETE ∧
      (c4queue.entries.getD 0 default).state ≠ MQTT_QUEUED_COMPLETE ∧
      (mqtt_mq_clean c4queue).arena.length = 5 := by
  refine ⟨?_, by decide, by decide, ?_⟩ <;> decide

/-- C4 amended: for every well-laid-out queue, with `k` the length of the
contiguous run of `MQTT_QUEUED_COMPLETE` entries at the OLDEST end (the scan
of `mqtt_mq_clean` starts at `mqtt_mq_get(mq, 0)`, the oldest entry): if all
`N` entries are complete the queue resets to empty (`curr == mem_start`,
`queue_tail == mem_end`); otherwise `clean` reduces the occupied arena bytes
by exactly the sum of the k completed entries' sizes and preserves the
byte-identical content and relative order of the `N - k` survivors, with
their offsets rebased by the removed amount. -/
theorem C4_amended (mq : MessageQueue)
    (hlayout : entryLayoutB 0 mq.entries = true)
    (harena : mq.arena.length = sumSizes mq.entries) :
    ((mq.entries.takeWhile (fun e => e.state == MQTT_QUEUED_COMPLETE)).length =
        mq.entries.length →
      (mqtt_mq_clean mq).arena = [] ∧ (mqtt_mq_clean mq).entries = []) ∧
    (∀ k, k = (mq.entries.takeWhile (fun e => e.state == MQTT_QUEUED_COMPLETE)).length →
      k < mq.entries.length →
      sumSizes (mq.entries.take k) ≤ mq.arena.length ∧
      (mqtt_mq_clean mq).arena = mq.arena.drop (sumSizes (mq.entries.take k)) ∧
      (mqtt_mq_clean mq).arena.length =
        mq.arena.length - sumSizes (mq.entries.take k) ∧
      (mqtt_mq_clean mq).entries = (mq.entries.drop k).map
        (fun e => { e with start := e.start - sumSizes (mq.entries.take k) })) := by
  constructor
  · intro hall
    unfold mqtt_mq_clean
    rw [if_pos hall]
    exact ⟨rfl, rfl⟩
  · intro k hk hklt
    have hle : sumSizes (mq.entries.take k) ≤ mq.arena.length := by
      have := sumSizes_take_drop mq.entries k
      omega
    by_cases hk0 : k = 0
    · subst hk0
      have hclean : mqtt_mq_clean mq = mq := by
        unfold mqtt_mq_clean
        rw [if_neg (by omega), if_pos hk.symm]
      refine ⟨hle, ?_, ?_, ?_⟩
      · rw [hclean]
        simp [sumSizes]
      · rw [hclean]
        simp [sumSizes]
      · rw [hclean]
        simp only [sumSizes, List.take_zero, List.map_nil, List.sum_nil, List.drop_zero]
        rw [show (fun e : QueuedMessage => { e with start := e.start - 0 }) = id from
          funext qm_rebase_zero]
        rw [List.map_id]
    · have hstart : (mq.entries.getD k default).start = sumSizes (mq.entries.take k) := by
        simpa using entryLayout_start mq.entries 0 k hlayout hklt
      have hclean : mqtt_mq_clean mq =
          { mq with
            arena := mq.arena.drop (sumSizes (mq.entries.take k)),
            entries := (mq.entries.drop k).map
              (fun e => { e with start := e.start - sumSizes (mq.entries.take k) }),
            curr_sz := mqttMqCurrSz mq.mem_size
              (mq.arena.drop (sumSizes (mq.entries.take k))).length
              (mq.entries.length - k) } := by
        unfold mqtt_mq_clean
        dsimp only
        rw [← hk]
        rw [if_neg (by omega), if_neg hk0]
        rw [hstart]
      refine ⟨hle, ?_, ?_, ?_⟩
      · rw [hclean]
      · rw [hclean]
        simp
      · rw [hclean]

/-- C4 witness: a queue whose oldest entry is COMPLETE and newest is UNSENT;
compaction drops the oldest 3 bytes, keeps the survivor's bytes `[6, 5]`,
and rebases its offset from 3 to 0. -/
theorem C4_witness :
    (mqtt_mq_clean
      { mem_size := 60, arena := [9, 8, 7, 6, 5],
        entries := [⟨0, 3, MQTT_QUEUED_COMPLETE, 3, 0, 0⟩,
          ⟨3, 2, MQTT_QUEUED_UNSENT, 8, 7, 0⟩],
        curr_sz := mqttMqCurrSz 60 5 2 }).arena = [6, 5] ∧
    (mqtt_mq_clean
      { mem_size := 60, arena := [9, 8, 7, 6, 5],
        entries := [⟨0, 3, MQTT_QUEUED_COMPLETE, 3, 0, 0⟩,
          ⟨3, 2, MQTT_QUEUED_UNSENT, 8, 7, 0⟩],
        curr_sz := mqttMqCurrSz 60 5 2 }).entries =
      [⟨0, 2, MQTT_QUEUED_UNSENT, 8, 7, 0⟩] := by
  have h := (C4_amended
    { mem_size := 60, arena := [9, 8, 7, 6, 5],
      entries := [⟨0, 3, MQTT_QUEUED_COMPLETE, 3, 0, 0⟩,
        ⟨3, 2, MQTT_QUEUED_UNSENT, 8, 7, 0⟩],
      curr_sz := mqttMqCurrSz 60 5 2 }
    (by decide) (by decide)).2 1 (by decide) (by decide)
  obtain ⟨-, h2, -, h4⟩ := h
  constructor
  · rw [h2]; decide
  · rw [h4]; decide

/-- `struct mqtt_response` of the missing header with the per-type decoded
union flattened into one record (only the variant matching the control type
is meaningful). -/
structure MqttResponse where
  fixed_header : MqttFixedHeader
  connack_session_present : Nat
  connack_return_code : Nat
  publish_dup_flag : Nat
  publish_qos_level : Nat
  publish_retain_flag : Nat
  publish_topic_name_size : Nat
  publish_topic_name : List Nat
  publish_application_message : List Nat
  publish_application_message_size : Nat
  suback_packet_id : Nat
  suback_num_return_codes : Nat
  suback_return_codes : List Nat
deriving DecidableEq, Repr

instance : Inhabited MqttResponse := ⟨⟨⟨0, 0, 0⟩, 0, 0, 0, 0, 0, 0, [], [], 0, 0, 0, []⟩⟩

/-- `mqtt_unpack_connack_response` of mqtt.c: `buf` is the buffer after the
fixed header.  Checks remaining length 2, rejects flag bytes other than the
session-present bit and return codes above 5, else records both bytes. -/
def mqtt_unpack_connack_response (response : MqttResponse) (buf : List Nat) :
    Int × MqttResponse :=
  if response.fixed_header.remaining_length ≠ 2 then
    (MQTT_ERROR_MALFORMED_RESPONSE, response)
  else if buf.getD 0 0 &&& 254 ≠ 0 then
    (MQTT_ERROR_CONNACK_FORBIDDEN_FLAGS, response)
  else
    let response := { response with connack_session_present := buf.getD 0 0 }
    if buf.getD 1 0 > 5 then (MQTT_ERROR_CONNACK_FORBIDDEN_CODE, response)
    else (2, { response with connack_return_code := buf.getD 1 0 })

/-- `mqtt_unpack_publish_response` of mqtt.c: decode flags from the fixed
header, require remaining length at least 4, then split the 2-byte-prefixed
topic and the payload. -/
def mqtt_unpack_publish_response (response : MqttResponse) (buf : List Nat) :
    Int × MqttResponse :=
  let fh := response.fixed_header
  let response := { response with
    publish_dup_flag := (fh.control_flags &&& MQTT_PUBLISH_DUP) >>> 3,
    publish_qos_level := (fh.control_flags &&& 6) >>> 1,
    publish_retain_flag := fh.control_flags &&& 1 }
  if fh.remaining_length < 4 then (MQTT_ERROR_MALFORMED_RESPONSE, response)
  else
    let topic_name_size := mqtt_unpack_uint16 buf
    let application_message_size := fh.remaining_length - topic_name_size - 2
    ((2 + topic_name_size + application_message_size : Nat),
      { response with
        publish_topic_name_size := topic_name_size,
        publish_topic_name := (buf.drop 2).take topic_name_size,
        publish_application_message :=
          (buf.drop (2 + topic_name_size)).take application_message_size,
        publish_application_message_size := application_message_size })

/-- `mqtt_unpack_suback_response` of mqtt.c. -/
def mqtt_unpack_suback_response (response : MqttResponse) (buf : List Nat) :
    Int × MqttResponse :=
  let remaining_length := response.fixed_header.remaining_length
  if remaining_length < 3 then (MQTT_ERROR_MALFORMED_RESPONSE, response)
  else
    ((remaining_length : Nat),
      { response with
        suback_packet_id := mqtt_unpack_uint16 buf,
        suback_num_return_codes := remaining_length - 2,
        suback_return_codes := (buf.drop 2).take (remaining_length - 2) })

/-- `mqtt_unpack_response` of mqtt.c: unpack the fixed header (propagating
0/negative results), then dispatch on the control type; the total return is
the fixed-header bytes plus the per-type consumed count. -/
def mqtt_unpack_response (buf : List Nat) : Int × MqttResponse :=
  let rv := mqtt_unpack_fixed_header buf
  let response := { (default : MqttResponse) with fixed_header := rv.2 }
  if rv.1 ≤ 0 then (rv.1, response)
  else
    let rest := buf.drop rv.1.toNat
    if response.fixed_header.control_type = MQTT_CONTROL_CONNACK then
      let rv2 := mqtt_unpack_connack_response response rest
      if rv2.1 < 0 then (rv2.1, rv2.2) else (rv.1 + rv2.1, rv2.2)
    else if response.fixed_header.control_type = MQTT_CONTROL_PUBLISH then
      let rv2 := mqtt_unpack_publish_response response rest
      if rv2.1 < 0 then (rv2.1, rv2.2) else (rv.1 + rv2.1, rv2.2)
    else if response.fixed_header.control_type = MQTT_CONTROL_SUBACK then
      let rv2 := mqtt_unpack_suback_response response rest
      if rv2.1 < 0 then (rv2.1, rv2.2) else (rv.1 + rv2.1, rv2.2)
    else if response.fixed_header.control_type = MQTT_CONTROL_PINGRESP then
      (rv.1, response)
    else (MQTT_ERROR_RESPONSE_INVALID_CONTROL_TYPE, response)

/-- The globals mqtt.c uses to report received acknowledgements to main.c. -/
structure RecvGlobals where
  connack_received : Nat
  suback_received : Nat
deriving DecidableEq, Repr

/-- Set the state of queue entry `i` (the `msg->state = ...` assignments of
`mqtt_recv`). -/
def mqttSetEntryState (mq : MessageQueue) (i : Nat) (state : Nat) : MessageQueue :=
  { mq with entries := mq.entries.set i { mq.entries.getD i default with state := state } }

/-- `mqtt_recv` of mqtt.c.  `pbuf` is the MQTT Partial Buffer contents
(`&uip_buf[MQTT_PBUF]` with `bufsz = mqtt_partial_buffer_length`); the
result is the return value, the updated client, and the updated globals.
The publish branch's application callback only queues external work and is
outside the embedding; the branch returns `MQTT_OK` unchanged. -/
def mqtt_recv (client : MqttClient) (pbuf : List Nat) (g : RecvGlobals) :
    Int × MqttClient × RecvGlobals :=
  let consumed := mqtt_unpack_response pbuf
  if consumed.1 < 0 then (consumed.1, { client with error := consumed.1 }, g)
  else
    let response := consumed.2
    if response.fixed_header.control_type = MQTT_CONTROL_CONNACK then
      let msg := mqtt_mq_find client.mq MQTT_CONTROL_CONNECT none
      let g := { g with connack_received := 1 }
      match msg with
      | none => (MQTT_ERROR_ACK_OF_UNKNOWN,
          { client with error := MQTT_ERROR_ACK_OF_UNKNOWN }, g)
      | some i =>
        let client := { client with mq := mqttSetEntryState client.mq i MQTT_QUEUED_COMPLETE }
        if response.connack_return_code ≠ MQTT_CONNACK_ACCEPTED then
          if response.connack_return_code = MQTT_CONNACK_REFUSED_IDENTIFIER_REJECTED then
            (MQTT_ERROR_CONNECT_CLIENT_ID_REFUSED,
              { client with error := MQTT_ERROR_CONNECT_CLIENT_ID_REFUSED }, g)
          else
            (MQTT_ERROR_CONNECTION_REFUSED,
              { client with error := MQTT_ERROR_CONNECTION_REFUSED }, g)
        else (MQTT_OK, client, g)
    else if response.fixed_header.control_type = MQTT_CONTROL_PUBLISH then
      (MQTT_OK, client, g)
    else if response.fixed_header.control_type = MQTT_CONTROL_SUBACK then
      let msg := mqtt_mq_find client.mq MQTT_CONTROL_SUBSCRIBE (some response.suback_packet_id)
      let g := { g with suback_received := 1 }
      match msg with
      | none => (MQTT_ERROR_ACK_OF_UNKNOWN,
          { client with error := MQTT_ERROR_ACK_OF_UNKNOWN }, g)
      | some i =>
        let client := { client with mq := mqttSetEntryState client.mq i MQTT_QUEUED_COMPLETE }
        if response.suback_return_codes.getD 0 0 = MQTT_SUBACK_FAILURE then
          (MQTT_ERROR_SUBSCRIBE_FAILED,
            { client with error := MQTT_ERROR_SUBSCRIBE_FAILED }, g)
        else (MQTT_OK, client, g)
    else if response.fixed_header.control_type = MQTT_CONTROL_PINGRESP then
      match mqtt_mq_find client.mq MQTT_CONTROL_PINGREQ none with
      | none => (MQTT_ERROR_ACK_OF_UNKNOWN,
          { client with error := MQTT_ERROR_ACK_OF_UNKNOWN }, g)
      | some i =>
        (MQTT_OK, { client with mq := mqttSetEntryState client.mq i MQTT_QUEUED_COMPLETE }, g)
    else (MQTT_ERROR_MALFORMED_RESPONSE,
      { client with error := MQTT_ERROR_MALFORMED_RESPONSE }, g)

/-- C10 confirmed: whenever `mqtt_recv` processes a successfully unpacked
frame whose control type is CONNACK, it sets the global `connack_received`
flag to 1 unconditionally — also when no pending CONNECT entry exists in the
send queue, in which case the call returns `MQTT_ERROR_ACK_OF_UNKNOWN`. -/
theorem C10_connack_flag (client : MqttClient) (pbuf : List Nat) (g : RecvGlobals)
    (hok : 0 < (mqtt_unpack_response pbuf).1)
    (hct : (mqtt_unpack_response pbuf).2.fixed_header.control_type = MQTT_CONTROL_CONNACK) :
    (mqtt_recv client pbuf g).2.2.connack_received = 1 ∧
    (mqtt_mq_find client.mq MQTT_CONTROL_CONNECT none = none →
      (mqtt_recv client pbuf g).1 = MQTT_ERROR_ACK_OF_UNKNOWN) := by
  unfold mqtt_recv
  dsimp only
  rw [if_neg (by omega : ¬(mqtt_unpack_response pbuf).1 < 0), if_pos hct]
  cases hfind : mqtt_mq_find client.mq MQTT_CONTROL_CONNECT none with
  | none => exact ⟨rfl, fun _ => rfl⟩
  | some i =>
    refine ⟨?_, fun hcontra => absurd hcontra (by simp)⟩
    dsimp only
    split
    · split
      · rfl
      · rfl
    · rfl

/-- C10 witness: feeding the CONNACK frame `[0x20, 2, 0, 0]` to a client with
an empty send queue sets `connack_received` and returns
`MQTT_ERROR_ACK_OF_UNKNOWN`. -/
theorem C10_witness :
    (mqtt_recv (mqtt_init 64) [32, 2, 0, 0] ⟨0, 0⟩).2.2.connack_received = 1 ∧
      (mqtt_recv (mqtt_init 64) [32, 2, 0, 0] ⟨0, 0⟩).1 = MQTT_ERROR_ACK_OF_UNKNOWN := by
  have h := C10_connack_flag (mqtt_init 64) [32, 2, 0, 0] ⟨0, 0⟩ (by decide) (by decide)
  exact ⟨h.1, h.2 (by decide)⟩

/-- Write a byte at an index of a buffer region modelled as the list of
bytes written so far (`uip_buf[MQTT_PBUF + i] = b`): in-range writes
overwrite, the write one past the end appends, and a farther write
zero-fills the gap (the C buffer holds whatever was there; no claim reads
such a gap). -/
def bufWrite (l : List Nat) (i b : Nat) : List Nat :=
  if i < l.length then l.set i b
  else l ++ List.replicate (i - l.length) 0 ++ [b]

/-- The persistent reassembly state of the HOME_ASSISTANT `mqtt_sync` loop:
the MQTT Partial Buffer region, `pbi`, `mqtt_partial_buffer_length` and
`current_msg_length` (all three counters are `uint8_t` in this build). -/
structure HAState where
  pbuf : List Nat
  pbi : Nat
  len : Nat
  cml : Nat
deriving DecidableEq, Repr

/-- The state after `mqtt_init`: all counters zero. -/
def haInitState : HAState := ⟨[], 0, 0, 0⟩

/-- One iteration of the HOME_ASSISTANT `mqtt_sync` while loop (mqtt.c
lines 201-281) on one captured byte: copy the byte into the partial buffer,
advance the `uint8_t` counters, record the remaining length at the second
byte, count it down from the third byte on, and when it reaches zero deliver
the buffer to `mqtt_recv` (modelled as the emitted event `(len, pbuf)`) and
reset the partial-buffer variables. -/
def haStep (s : HAState) (b : Nat) : HAState × Option (Nat × List Nat) :=
  let pbuf := bufWrite s.pbuf s.pbi b
  let pbi := (s.pbi + 1) % 256
  let len := (s.len + 1) % 256
  let cml :=
    if len = 2 then pbuf.getD 1 0
    else if len > 2 then (if s.cml = 0 then 255 else s.cml - 1)
    else s.cml
  if len = 1 then (⟨pbuf, pbi, len, cml⟩, none)
  else if cml = 0 then (⟨pbuf, 0, 0, cml⟩, some (len, pbuf))
  else (⟨pbuf, pbi, len, cml⟩, none)

/-- The HOME_ASSISTANT receive loop over one TCP chunk: fold `haStep` over
the chunk's bytes, collecting the sequence of `mqtt_recv` deliveries (the
receive engine is abstracted as this event list; its `MQTT_OK` path lets the
loop continue, and a chunk that ends mid-frame leaves all counters in the
returned state, as in the source). -/
def haRun : HAState → List Nat → HAState × List (Nat × List Nat)
  | s, [] => (s, [])
  | s, b :: rest =>
    let r := haStep s b
    let r2 := haRun r.1 rest
    (r2.1, r.2.toList ++ r2.2)

/-- Processing a concatenation of two chunks equals processing them in two
consecutive invocations, both for the final state and for the event list. -/
theorem haRun_append : ∀ (c1 c2 : List Nat) (s : HAState),
    haRun s (c1 ++ c2) =
      ((haRun (haRun s c1).1 c2).1, (haRun s c1).2 ++ (haRun (haRun s c1).1 c2).2) := by
  intro c1
  induction c1 with
  | nil => intro c2 s; simp [haRun]
  | cons b rest ih =>
    intro c2 s
    rw [List.cons_append, haRun, haRun, ih]
    simp [List.append_assoc]

/-- Writing at the current end of the buffer appends. -/
theorem bufWrite_append (l : List Nat) (b : Nat) : bufWrite l l.length b = l ++ [b] := by
  unfold bufWrite
  rw [if_neg (by omega)]
  simp

/-- Once the control and remaining-length bytes are in the partial buffer,
feeding exactly the outstanding `cml` payload bytes completes the frame:
one `mqtt_recv` delivery of the accumulated buffer, counters reset. -/
theorem haRun_completes : ∀ (p : List Nat) (s : HAState), p ≠ [] →
    s.len = s.pbuf.length → s.pbi = s.len → 2 ≤ s.len → s.len + p.length ≤ 255 →
    s.cml = p.length →
    haRun s p = (⟨s.pbuf ++ p, 0, 0, 0⟩, [((s.len + p.length) % 256, s.pbuf ++ p)]) := by
  intro p
  induction p with
  | nil => intro s h; exact absurd rfl h
  | cons b rest ih =>
    intro s _ hlen hpbi h2 hbound hcml
    rw [haRun]
    have hw : bufWrite s.pbuf s.pbi b = s.pbuf ++ [b] := by
      rw [hpbi, hlen, bufWrite_append]
    have hlen1 : (s.len + 1) % 256 = s.len + 1 := by
      apply Nat.mod_eq_of_lt
      simp at hbound
      omega
    have hne2 : ¬((s.len + 1) % 256 = 2) := by omega
    have hgt2 : (s.len + 1) % 256 > 2 := by omega
    have hne1 : ¬((s.len + 1) % 256 = 1) := by omega
    have hcml0 : ¬(s.cml = 0) := by
      rw [hcml]
      simp
    cases rest with
    | nil =>
      have hcml1 : s.cml = 1 := by simpa using hcml
      have hz : s.cml - 1 = 0 := by omega
      rw [haStep]
      rw [hw, if_neg hne2, if_pos hgt2, if_neg hcml0, if_neg hne1, if_pos hz]
      rw [haRun]
      simp [hlen1, hz]
    | cons b2 rest2 =>
      have hcmlgt : 1 < s.cml := by rw [hcml]; simp
      have hnz : ¬(s.cml - 1 = 0) := by omega
      rw [haStep]
      rw [hw, if_neg hne2, if_pos hgt2, if_neg hcml0, if_neg hne1, if_neg hnz]
      have hplen : (s.pbuf ++ [b]).length = s.pbuf.length + 1 := by simp
      have hrec := ih ⟨s.pbuf ++ [b], (s.pbi + 1) % 256, (s.len + 1) % 256, s.cml - 1⟩
        (by simp)
        (by dsimp only; rw [hlen1, hplen]; omega)
        (by dsimp only; rw [hlen1, hpbi, hlen]; omega)
        (by dsimp only; omega)
        (by dsimp only; rw [hlen1]; simp at hbound ⊢; omega)
        (by dsimp only; rw [hcml]; simp)
      rw [hrec]
      dsimp only
      rw [hlen1]
      have harith : s.len + 1 + (b2 :: rest2).length = s.len + (b :: b2 :: rest2).length := by
        simp
        omega
      rw [harith]
      simp [List.append_assoc]

/-- The first byte of a frame entering an empty reassembly state. -/
theorem haStep_first (b0 : Nat) : haStep haInitState b0 = (⟨[b0], 1, 1, 0⟩, none) := by
  rw [haStep]
  norm_num [haInitState, bufWrite]

/-- The remaining-length byte of a frame: nonzero lengths arm the countdown. -/
theorem haStep_second (b0 b1 : Nat) (h : b1 ≠ 0) :
    haStep ⟨[b0], 1, 1, 0⟩ b1 = (⟨[b0, b1], 2, 2, b1⟩, none) := by
  rw [haStep]
  norm_num [bufWrite]
  exact h

/-- The remaining-length byte of a frame: a zero remaining length completes
the 2-byte frame immediately. -/
theorem haStep_second_zero (b0 : Nat) :
    haStep ⟨[b0], 1, 1, 0⟩ 0 = (⟨[b0, 0], 0, 0, 0⟩, some (2, [b0, 0])) := by
  rw [haStep]
  norm_num [bufWrite]

/-- C5 confirmed: under the Home Assistant build, for a complete frame with
a single-byte remaining length (first byte `b0`, remaining length `b1`,
payload of exactly `b1` bytes), feeding all bytes to the `mqtt_sync` receive
loop in one invocation and feeding them split into two invocations at any
split point `i` produce the identical sequence of `mqtt_recv` deliveries
with identical reassembled frame content (exactly one delivery, of the whole
frame), and the same final reassembly state. -/
theorem C5_sync_split (b0 b1 : Nat) (payload : List Nat) (i : Nat)
    (hb1 : b1 ≤ 127) (hlen : payload.length = b1) :
    (haRun haInitState ((b0 :: b1 :: payload).take i)).2 ++
        (haRun (haRun haInitState ((b0 :: b1 :: payload).take i)).1
          ((b0 :: b1 :: payload).drop i)).2 =
      (haRun haInitState (b0 :: b1 :: payload)).2 ∧
    (haRun (haRun haInitState ((b0 :: b1 :: payload).take i)).1
        ((b0 :: b1 :: payload).drop i)).1 =
      (haRun haInitState (b0 :: b1 :: payload)).1 ∧
    (haRun haInitState (b0 :: b1 :: payload)).2 = [(2 + b1, b0 :: b1 :: payload)] := by
  have hsplit := haRun_append ((b0 :: b1 :: payload).take i)
    ((b0 :: b1 :: payload).drop i) haInitState
  rw [List.take_append_drop] at hsplit
  refine ⟨by rw [hsplit], by rw [hsplit], ?_⟩
  by_cases hz : b1 = 0
  · subst hz
    have hpl : payload = [] := List.length_eq_zero.mp hlen
    subst hpl
    rw [haRun, haStep_first]
    rw [haRun, haStep_second_zero]
    rw [haRun]
    rfl
  · rw [haRun, haStep_first]
    rw [haRun, haStep_second b0 b1 hz]
    have hcomp := haRun_completes payload ⟨[b0, b1], 2, 2, b1⟩
      (by intro hc; rw [hc] at hlen; simp at hlen; omega)
      (by simp)
      rfl
      (by norm_num)
      (by simp [hlen]; omega)
      (by simpa using hlen.symm)
    rw [hcomp]
    dsimp only
    rw [hlen, Nat.mod_eq_of_lt (by omega : 2 + b1 < 256)]
    simp

/-- C5 witness: the 4-byte frame `[0x30, 2, 10, 20]` split at byte 2 yields
the same single delivery as the unsplit run. -/
theorem C5_witness :
    (haRun haInitState (([48, 2, 10, 20] : List Nat).take 2)).2 ++
        (haRun (haRun haInitState (([48, 2, 10, 20] : List Nat).take 2)).1
          (([48, 2, 10, 20] : List Nat).drop 2)).2 =
      (haRun haInitState ([48, 2, 10, 20] : List Nat)).2 ∧
    (haRun haInitState ([48, 2, 10, 20] : List Nat)).2 = [(4, [48, 2, 10, 20])] := by
  have h := C5_sync_split 48 2 [10, 20] 2 (by norm_num) rfl
  exact ⟨h.1, h.2.2⟩

/-- Modelled from the spec: filter state-machine step constant (missing
header); only distinctness matters. -/
def CAPTURE_VARIABLE_HEADER_BYTE1 : Nat := 1

/-- Modelled from the spec: filter state-machine step constant. -/
def CAPTURE_VARIABLE_HEADER_BYTE2 : Nat := 2

/-- Modelled from the spec: filter state-machine step constant. -/
def FIND_COMPONENT_START : Nat := 3

/-- Modelled from the spec: filter state-machine step constant. -/
def CAPTURE_COMPONENT : Nat := 4

/-- Modelled from the spec: filter state-machine step constant. -/
def COMPLETE_MSG_RECEIVE : Nat := 5

/-- The persistent state of the DOMOTICZ `mqtt_sync` loop: partial buffer,
`pbi`/`mqtt_partial_buffer_length` (`uint8_t`), `current_msg_length`
(`uint16_t` in this build), the remaining-length-captured flag, the
`char[20]` parse buffer (zero-initialized global) with its index, the
filter step, and the two extracted component holders. -/
structure DZState where
  pbuf : List Nat
  pbi : Nat
  len : Nat
  cml : Nat
  rlcap : Nat
  parse_buffer : List Nat
  parse_index : Nat
  filter_step : Nat
  idx_string : List Nat
  nvalue_string : List Nat
deriving DecidableEq, Repr

/-- The DOMOTICZ reassembly state after `mqtt_init`: zeroed counters and a
zero-filled parse buffer. -/
def dzInit : DZState :=
  ⟨[], 0, 0, 0, 0, List.replicate 20 0, 0, 0, [], []⟩

/-- The `strncmp(parse_buffer, "\n\t\"idx\"\0", 7) == 0` comparison of the
filter (bytes LF TAB `"` `i` `d` `x` `"`). -/
def matchIdx (pb : List Nat) : Bool :=
  (pb.getD 0 0 == 10) && (pb.getD 1 0 == 9) && (pb.getD 2 0 == 34) &&
    (pb.getD 3 0 == 105) && (pb.getD 4 0 == 100) && (pb.getD 5 0 == 120) &&
    (pb.getD 6 0 == 34)

/-- The `strncmp(parse_buffer, "\n\t\"nval\0", 7) == 0` comparison of the
filter (bytes LF TAB `"` `n` `v` `a` `l`). -/
def matchNval (pb : List Nat) : Bool :=
  (pb.getD 0 0 == 10) && (pb.getD 1 0 == 9) && (pb.getD 2 0 == 34) &&
    (pb.getD 3 0 == 110) && (pb.getD 4 0 == 118) && (pb.getD 5 0 == 97) &&
    (pb.getD 6 0 == 108)

/-- The idx-value extraction loop of the filter: copy `parse_buffer[10..15]`
into `idx_string` stopping at the comma. -/
def extractIdx (pb : List Nat) : List Nat :=
  ((List.range 6).map (fun j => pb.getD (10 + j) 0)).takeWhile (fun c => c != 44)

/-- The `switch (filter_step)` of the DOMOTICZ PUBLISH filter (mqtt.c lines
622-769).  The caller has already decremented `pbi` and
`mqtt_partial_buffer_length` (the "delete the captured character" prologue),
so the byte just captured sits at `pbuf[pbi]`. -/
def dzFilter (s : DZState) : DZState :=
  if s.filter_step = CAPTURE_VARIABLE_HEADER_BYTE1 then
    { s with pbuf := bufWrite s.pbuf s.pbi 0, len := (s.len + 1) % 256,
             pbi := (s.pbi + 1) % 256, filter_step := CAPTURE_VARIABLE_HEADER_BYTE2 }
  else if s.filter_step = CAPTURE_VARIABLE_HEADER_BYTE2 then
    { s with pbuf := bufWrite (bufWrite s.pbuf s.pbi 1) (s.pbi + 1) 100,
             len := (s.len + 2) % 256, pbi := (s.pbi + 2) % 256,
             filter_step := FIND_COMPONENT_START, parse_index := 0 }
  else if s.filter_step = FIND_COMPONENT_START then
    if s.pbuf.getD s.pbi 0 = 10 then
      { s with parse_buffer := bufWrite s.parse_buffer s.parse_index (s.pbuf.getD s.pbi 0),
               parse_index := s.parse_index + 1, filter_step := CAPTURE_COMPONENT }
    else s
  else if s.filter_step = CAPTURE_COMPONENT then
    let s := { s with
      parse_buffer := bufWrite s.parse_buffer s.parse_index (s.pbuf.getD s.pbi 0),
      parse_index := s.parse_index + 1 }
    let s :=
      if s.parse_buffer.getD (s.parse_index - 1) 0 = 44 then
        if matchIdx s.parse_buffer then
          { s with idx_string := extractIdx s.parse_buffer, parse_index := 0,
                   filter_step := FIND_COMPONENT_START }
        else if matchNval s.parse_buffer then
          { s with nvalue_string := [s.parse_buffer.getD 13 0],
                   pbi := (s.pbi + 1) % 256, len := (s.len + 1) % 256,
                   pbuf := bufWrite s.pbuf (s.pbi + 1) 125,
                   filter_step := COMPLETE_MSG_RECEIVE }
        else { s with parse_index := 0, filter_step := FIND_COMPONENT_START }
      else s
    if s.parse_index = 19 then
      { s with parse_index := 0, filter_step := FIND_COMPONENT_START }
    else s
  else s

/-- Frame completion in the DOMOTICZ loop: write the reduced remaining
length into byte 1 of the partial buffer, deliver to `mqtt_recv` (the
emitted event `(len, pbuf)`), and reset the capture variables. -/
def dzComplete (s : DZState) : DZState × Option (Nat × List Nat) × Bool :=
  let pbuf := bufWrite s.pbuf 1 ((s.len - 2) % 256)
  ({ s with pbuf := pbuf, len := 0, pbi := 0, rlcap := 0 },
    some (s.len, pbuf), false)

/-- One iteration of the DOMOTICZ `mqtt_sync` while loop (mqtt.c lines
426-910) on one byte of the incoming chunk: start-of-message reset, byte
capture, remaining-length capture (with the two-byte continuation case that
rewinds `pbi`/length by one), the PUBLISH filter, the non-PUBLISH copy path
with its 59-byte guard (`true` in the third component models the `break`
that abandons the rest of the chunk), and frame completion. -/
def dzStep (s : DZState) (b : Nat) : DZState × Option (Nat × List Nat) × Bool :=
  let s :=
    if s.len = 0 then
      { s with idx_string := [], nvalue_string := [], rlcap := 0,
               filter_step := CAPTURE_VARIABLE_HEADER_BYTE1 }
    else s
  let s := { s with pbuf := bufWrite s.pbuf s.pbi b,
                    len := (s.len + 1) % 256, pbi := (s.pbi + 1) % 256 }
  if s.len = 1 then (s, none, false)
  else
    let s :=
      if s.len = 2 then
        { s with cml := (s.pbuf.getD 1 0) &&& 127,
                 rlcap := if (s.pbuf.getD 1 0) &&& 128 = 0 then 1 else s.rlcap }
      else s
    if s.len = 2 ∧ s.pbuf.getD 1 0 ≠ 0 then (s, none, false)
    else if s.len = 3 ∧ s.rlcap = 0 then
      ({ s with cml := s.cml + (s.pbuf.getD 2 0) * 128, pbi := 2, len := 2,
                rlcap := 1 }, none, false)
    else if 2 < s.len ∧ (s.pbuf.getD 0 0) &&& 240 = 48 then
      let s := dzFilter { s with pbi := s.pbi - 1, len := s.len - 1 }
      let s := { s with cml := s.cml - 1 }
      if s.cml ≠ 0 then (s, none, false) else dzComplete s
    else if 2 < s.len ∧ (s.pbuf.getD 0 0) &&& 240 ≠ 48 then
      if 59 < s.cml then (s, none, true)
      else
        let s := { s with cml := s.cml - 1 }
        if s.cml = 0 then dzComplete s else (s, none, false)
    else
      if s.cml = 0 then dzComplete s else (s, none, false)

/-- The DOMOTICZ receive loop over one TCP chunk: process byte by byte,
collecting `mqtt_recv` deliveries; a `break` (oversized non-PUBLISH frame)
abandons the remaining bytes of the chunk. -/
def dzRun : DZState → List Nat → DZState × List (Nat × List Nat)
  | s, [] => (s, [])
  | s, b :: rest =>
    let r := dzStep s b
    if r.2.2 then (r.1, r.2.1.toList)
    else
      let r2 := dzRun r.1 rest
      (r2.1, r.2.1.toList ++ r2.2)

/-- The C9 scenario frame: a PUBLISH (control byte 0x30) with a 1-byte topic
`d` and the synthetic Domoticz payload
LF TAB `"idx" : 42,` LF TAB `"nvalue" : 1,` (33 bytes in total, remaining
length 31). -/
def c9frame : List Nat :=
  [48, 31, 0, 1, 100,
   10, 9, 34, 105, 100, 120, 34, 32, 58, 32, 52, 50, 44,
   10, 9, 34, 110, 118, 97, 108, 117, 101, 34, 32, 58, 32, 49, 44]

/-- C9 confirmed: feeding the PUBLISH frame whose payload carries the
components LF TAB `"idx" : 42,` and LF TAB `"nvalue" : 1,` through the
DOMOTICZ `mqtt_sync` loop — whole (split point 0 or 33) or split at any
byte boundary into two chunks — always leaves `idx_string` holding "42"
(bytes [52, 50]) and `nvalue_string` holding "1" (byte [49]), delivers
exactly one synthesized reduced message `[0x30, 4, 0, 1, 'd', ',']` (the
partial buffer content of length 6) to `mqtt_recv`, and that message is
accepted by `mqtt_unpack_fixed_header`'s validation inside
`mqtt_unpack_response` (it returns the positive consumed count 2). -/
theorem C9_domoticz_filter : ∀ i : Fin 34,
    (dzRun (dzRun dzInit (c9frame.take i.val)).1 (c9frame.drop i.val)).1.idx_string =
      [52, 50] ∧
    (dzRun (dzRun dzInit (c9frame.take i.val)).1 (c9frame.drop i.val)).1.nvalue_string =
      [49] ∧
    (dzRun dzInit (c9frame.take i.val)).2 ++
        (dzRun (dzRun dzInit (c9frame.take i.val)).1 (c9frame.drop i.val)).2 =
      [(6, [48, 4, 0, 1, 100, 44, 125])] ∧
    0 < (mqtt_unpack_fixed_header (([48, 4, 0, 1, 100, 44, 125] : List Nat).take 6)).1 ∧
    (mqtt_unpack_response (([48, 4, 0, 1, 100, 44, 125] : List Nat).take 6)).1 = 6 := by
  decide
